import Mathlib

/-!
# goajax: a JSON-RPC dispatcher over registered service objects

A shallow embedding of `server.go`: the request envelope, the registry of services and
methods, parameter coercion (`getParams`) and the per-request dispatch (`ServeHTTP`).

Conventions of the embedding.

* A `json.RawMessage` is the JSON tree its bytes denote; a `*json.RawMessage` is an
  `Option JSON`, `none` being the nil pointer.
* JSON numbers are identified with the `float64` they decode to; a literal whose magnitude
  exceeds the `float64` range is the separate constructor `JSON.hugeNumber`.
* A run-time panic of the Go code is an explicit result, never an exception of the model.
* The `http.ResponseWriter` is the trace of the calls it received. A call of
  `enc.Encode` on a value that `json.Marshal` refuses leaves no write in the trace.
* `float64` addition rounds to the nearest value, a tie to the even mantissa, and
  overflows to an infinity.
* The server is used sequentially: the locks guard no state of their own and are left out.
* The table of `unicode.IsUpper` is a parameter of `isExported` and `register`.
* The lines `register` writes to the log are left out; the exit of the process in
  `log.Fatalln` is a result of its own.
-/

namespace goajax

/-! ## Go run-time values -/

/-- A finite `float64`: the number `mant * 2 ^ exp`. The sign of a zero is not kept. -/
structure float64 where
  mant : Int
  exp : Int
deriving DecidableEq, Repr

/-- The integer part of a `float64`, the fraction discarded (truncation toward zero). -/
def float64.trunc (f : float64) : Int :=
  if 0 ≤ f.exp then f.mant * 2 ^ f.exp.toNat else Int.tdiv f.mant (2 ^ (-f.exp).toNat)

/-- The Go conversion `int(f)` on a 64-bit platform: the truncated value when it fits in
an `int`; otherwise the language leaves the result to the implementation, and the value
produced by amd64 is used. -/
def float64.toInt (f : float64) : Int :=
  if -2 ^ 63 ≤ f.trunc ∧ f.trunc < 2 ^ 63 then f.trunc else -2 ^ 63

/-- The kinds of `reflect.Kind` (the kind of raw machine pointers is left out). -/
inductive Kind where
  | Invalid | Bool
  | Int | Int8 | Int16 | Int32 | Int64
  | Uint | Uint8 | Uint16 | Uint32 | Uint64 | Uintptr
  | Float32 | Float64 | Complex64 | Complex128
  | Array | Chan | Func | Interface | Map | Ptr | Slice | String | Struct
deriving DecidableEq, Repr

/-- A Go type as `reflect.Type` shows it. -/
inductive RType where
  /-- A predeclared basic type: `bool`, `int`, `float64`, `string`, ... -/
  | basic (k : Kind)
  /-- A defined (named) type `pkgPath.name` with the given underlying type. -/
  | defined (pkgPath name : String) (underlying : RType)
  /-- The pointer type `*elem`. -/
  | ptr (elem : RType)
  /-- The slice type `[]elem`. -/
  | slice (elem : RType)
  /-- The map type `map[key]elem`. -/
  | map (key elem : RType)
  /-- Any other unnamed type (struct, interface, func, array, chan), by kind and text. -/
  | literal (k : Kind) (text : String)
deriving DecidableEq, Repr

/-- The method `Kind()` of `reflect.Type`. -/
def RType.kind : RType → Kind
  | .basic k => k
  | .defined _ _ u => u.kind
  | .ptr _ => Kind.Ptr
  | .slice _ => Kind.Slice
  | .map _ _ => Kind.Map
  | .literal k _ => k

/-- The empty interface type `interface {}`. -/
def emptyInterface : RType := .literal Kind.Interface "interface \x7b\x7d"

/-- The type of `os.Error`, that is the predeclared interface `error`
(`typeOfOsError` of the source). -/
def typeOfOsError : RType :=
  .defined "" "error" (.literal Kind.Interface "interface \x7b Error() string \x7d")

/-- A JSON text, as the tree it denotes. -/
inductive JSON where
  | null
  | bool (b : Bool)
  /-- A number literal, by the `float64` it decodes to. -/
  | number (f : float64)
  /-- A number literal that no `float64` holds (such as `1e999`). -/
  | hugeNumber
  | string (s : String)
  | array (elems : List JSON)
  | object (members : List (String × JSON))

/-- What a Go value holds. Slices, maps and structs are held as the JSON tree that
denotes their content. -/
inductive Data where
  /-- The nil pointer, nil interface, nil slice or nil map. -/
  | nil
  | bool (b : Bool)
  | int (i : Int)
  | float (f : float64)
  | string (s : String)
  | tree (j : JSON)
  /-- A value that implements `error` and whose `Error()` is `msg`. -/
  | error (msg : String)
  /-- The `float64` infinity of the given sign. -/
  | infinity (negative : Bool)
  /-- The `float64` that is not a number. -/
  | nan
  /-- A value that `json.Marshal` refuses: a channel, a function, a complex number, a
  value that holds one, or a value whose `MarshalJSON` fails. -/
  | unsupported

/-- The number of binary digits of `n`, counted in at most `fuel` steps. -/
def bitLengthAux : Nat → Nat → Nat
  | 0, _ => 0
  | fuel + 1, n => if n = 0 then 0 else bitLengthAux fuel (n / 2) + 1

/-- The number of binary digits of `n`. -/
def bitLength (n : Nat) : Nat := bitLengthAux n n

/-- The magnitude `n * 2 ^ exp` rounded to the nearest `float64`, a tie to the even
mantissa: 53 bits of mantissa, the lowest bit no lower than `2 ^ -1074`. A magnitude that
needs no rounding keeps its mantissa and exponent. `none` when the rounded magnitude
reaches `2 ^ 1024`, that is when its highest bit is no lower than `2 ^ 1024`: the
overflow. -/
def float64.roundNat (n : Nat) (exp : Int) : Option (Nat × Int) :=
  if n = 0 then some (0, exp)
  else
    let top : Int := exp + bitLength n - 1
    let q : Int := max (top - 52) (-1074)
    if q ≤ exp then
      if 1024 < exp + bitLength n then none else some (n, exp)
    else
      let s := (q - exp).toNat
      let hi := n / 2 ^ s
      let r := n % 2 ^ s
      let half := 2 ^ (s - 1)
      let m := if half < r ∨ (r = half ∧ hi % 2 = 1) then hi + 1 else hi
      if 1024 < q + bitLength m then none else some (m, q)

/-- The Go sum `a + b` of two finite `float64` values: the exact sum rounded to the
nearest `float64`, or the infinity of its sign on overflow. -/
def float64.add (a b : float64) : Data :=
  let e := min a.exp b.exp
  let sum := a.mant * 2 ^ (a.exp - e).toNat + b.mant * 2 ^ (b.exp - e).toNat
  match float64.roundNat sum.natAbs e with
  | some (m, q) => .float ⟨if sum < 0 then -(m : Int) else m, q⟩
  | none => .infinity (decide (sum < 0))

/-- A `reflect.Value`: a type and what it holds. -/
structure Value where
  typ : RType
  data : Data

/-- The run-time panics of the dispatcher. -/
inductive Panic where
  /-- Dereference of a nil pointer. -/
  | nilDereference
  /-- Index `i` into a slice of `len` elements, `len ≤ i`. -/
  | indexOutOfRange (i len : Nat)
  /-- The method `Type` called on the zero `reflect.Value`. -/
  | zeroValueType
  /-- A failed type assertion `x.(T)`. -/
  | typeAssertion
  /-- The method `Call` of `reflect.Value` given too few or too many arguments. -/
  | callArity (given want : Nat)
  /-- The method `Call` given, at position `i`, a value of type `given` for a parameter of
  type `want` (`reflect: Call using given as type want`). -/
  | callUsing (i : Nat) (given want : RType)
deriving DecidableEq, Repr

/-! ## The library functions the dispatcher calls -/

/-- The segments of a character list between the occurrences of `sep`. -/
def splitChars (sep : Char) : List Char → List (List Char)
  | [] => [[]]
  | c :: cs =>
    if c = sep then [] :: splitChars sep cs
    else
      match splitChars sep cs with
      | [] => [[c]]
      | seg :: segs => (c :: seg) :: segs

/-- The library function `strings.Split(s, sep)` for a separator of one character: all
the substrings of `s` between the separators, in order. -/
def strings.Split (s : String) (sep : Char) : List String :=
  (splitChars sep s.data).map String.mk

/-- The library function `strconv.Itoa` on a natural number. -/
def strconv.Itoa (n : Nat) : String := toString n

/-- Simple case folding of one character, as far as it can reach an ASCII letter: upper
case to lower case, the long s (U+017F) to `s` and the Kelvin sign (U+212A) to `k`. -/
def foldRune (c : Char) : Char :=
  if c = Char.ofNat 0x17F then 's' else if c = Char.ofNat 0x212A then 'k' else c.toLower

/-- A member key `key` selects the struct field tagged `name`: the same text, or equal
under case folding. -/
def fieldMatches (name key : String) : Bool :=
  key = name || key.data.map foldRune = name.data.map foldRune

/-- The pointer a `*json.RawMessage` field or element holds after decoding the JSON
value `v`: nil for the literal `null`, else a pointer to the raw text of `v`. -/
def rawPointer : JSON → Option JSON
  | .null => none
  | v => some v

/-- The request envelope `jsonRequest`. -/
structure jsonRequest where
  Id : Option JSON
  Method : String
  Params : Option JSON

/-- The response envelope `jsonResponse`; `none` is the nil interface of an unset field. -/
structure jsonResponse where
  Id : Option JSON
  Result : Option Value
  Error : Option String

/-- Decoding of the members of a JSON object into a `jsonRequest`, in order, a later
member overwriting an earlier one. A `method` member that is neither a string nor `null`
is a type error, which fails the decoding (`none`); unknown members are skipped. -/
def decodeMembers : List (String × JSON) → jsonRequest → Option jsonRequest
  | [], req => some req
  | (key, v) :: rest, req =>
    if fieldMatches "id" key then decodeMembers rest ⟨rawPointer v, req.Method, req.Params⟩
    else if fieldMatches "method" key then
      match v with
      | .string s => decodeMembers rest ⟨req.Id, s, req.Params⟩
      | .null => decodeMembers rest req
      | _ => none
    else if fieldMatches "params" key then
      decodeMembers rest ⟨req.Id, req.Method, rawPointer v⟩
    else decodeMembers rest req

/-- A request body: the first JSON value its bytes hold, or `none` when none can be read
(empty, truncated or malformed text). -/
abbrev Body := Option JSON

/-- The call `json.NewDecoder(r.Body).Decode(req)` on a fresh `jsonRequest`: the decoded
envelope, or `none` when `Decode` returns an error. The value `null` leaves the envelope
zero; any value other than `null` and an object is a type error. -/
def Decode : Body → Option jsonRequest
  | none => none
  | some .null => some ⟨none, "", none⟩
  | some (.object members) => decodeMembers members ⟨none, "", none⟩
  | some _ => none

/-- The text of the `UnmarshalTypeError` for a JSON value of kind `what` decoded into a
`[]*json.RawMessage`. -/
def unmarshalTypeError (what : String) : String :=
  "json: cannot unmarshal " ++ what ++ " into Go value of type []*json.RawMessage"

/-- The call `json.Unmarshal(raw, &params)` for `params` an empty `[]*json.RawMessage`:
the slice of element pointers (nil for a `null` element), or the error text. -/
def unmarshalRawSlice : JSON → Except String (List (Option JSON))
  | .array elems => .ok (elems.map rawPointer)
  | .null => .ok []
  | .bool _ => .error (unmarshalTypeError "bool")
  | .number _ => .error (unmarshalTypeError "number")
  | .hugeNumber => .error (unmarshalTypeError "number")
  | .string _ => .error (unmarshalTypeError "string")
  | .object _ => .error (unmarshalTypeError "object")

mutual
/-- Every number literal of the tree is held by a `float64`. -/
def JSON.fits : JSON → Bool
  | .hugeNumber => false
  | .array elems => fitsAll elems
  | .object members => fitsMembers members
  | _ => true
/-- Every element fits. -/
def fitsAll : List JSON → Bool
  | [] => true
  | e :: es => e.fits && fitsAll es
/-- Every member value fits. -/
def fitsMembers : List (String × JSON) → Bool
  | [] => true
  | (_, e) :: es => e.fits && fitsMembers es
end

/-- The call `json.Unmarshal(raw, &v)` for `var v interface{}` followed by
`reflect.ValueOf(v)`: `none` when `Unmarshal` returns an error (a number literal out of
range), else the natural Go value of the JSON value, `some none` being the nil interface
that `null` leaves in `v`. -/
def unmarshalInterface (raw : JSON) : Option (Option Value) :=
  if raw.fits then
    match raw with
    | .null => some none
    | .bool b => some (some ⟨.basic Kind.Bool, .bool b⟩)
    | .number f => some (some ⟨.basic Kind.Float64, .float f⟩)
    | .hugeNumber => none
    | .string s => some (some ⟨.basic Kind.String, .string s⟩)
    | .array elems => some (some ⟨.slice emptyInterface, .tree (.array elems)⟩)
    | .object members =>
      some (some ⟨.map (.basic Kind.String) emptyInterface, .tree (.object members)⟩)
  else none

/-- The call `json.Unmarshal(raw, p)` for `p` a fresh pointer to a zero value of the
pointer type `argType`, as a parameter of the development: what the pointer of type
`argType` holds afterwards, or `none` when `Unmarshal` returns an error. -/
abbrev Unmarshal := RType → JSON → Option Data

/-! ## The response writer -/

/-- One write to the response body. -/
inductive Chunk where
  /-- Bytes written with `w.Write`. -/
  | raw (bytes : String)
  /-- The output of `json.NewEncoder(w).Encode(resp)` for a `resp` that can be
  marshalled; the serialisation is the library's. -/
  | encoded (resp : jsonResponse)

/-- One call received by the `http.ResponseWriter`. -/
inductive Event where
  /-- The call `w.Header().Set(key, value)`. -/
  | setHeader (key value : String)
  /-- A write to the body. -/
  | write (c : Chunk)

/-- The `http.ResponseWriter`: the calls it received, oldest first. -/
abbrev ResponseWriter := List Event

/-! ## The registry -/

/-- A method as `reflect.Method` shows it: its name, the types of its inputs (the
receiver first) and of its outputs, and the function itself, from the arguments (the
receiver first) to the returned values. -/
structure Method where
  Name : String
  In : List RType
  Out : List RType
  Func : List Value → List Value

/-- The record `methodType` of one registered method. -/
structure methodType where
  method : Method
  argTypes : List RType
  returnType : RType
  numCalls : Nat

/-- The record `service` of one registered object; the map `method` is an association
list read at the first entry of a key. -/
structure service where
  name : String
  rcvr : Value
  typ : RType
  method : List (String × methodType)

/-- The `Server`: the map from service names to services, an association list read at
the first entry of a key. -/
structure Server where
  serviceMap : List (String × service)

/-- The constructor `NewServer`: a server with an empty service map. -/
def NewServer : Server := ⟨[]⟩

/-- The number of values of the type `uint` (64 bits wide). -/
def uintSize : Nat := 2 ^ 64

/-- The statement `mtype.numCalls++` on the `uint` counter. -/
def methodType.countCall (m : methodType) : methodType :=
  ⟨m.method, m.argTypes, m.returnType, (m.numCalls + 1) % uintSize⟩

/-- The method table after `numCalls++` on the record that the key `mname` reads. -/
def countCallIn (mname : String) : List (String × methodType) → List (String × methodType)
  | [] => []
  | (k, m) :: rest =>
    if k = mname then (k, m.countCall) :: rest else (k, m) :: countCallIn mname rest

/-- The service map after `numCalls++` on the method `mname` of the service that the key
`sname` reads. The records are shared by pointer in the source, so the increment shows
in the server. -/
def countCallAt (sname mname : String) : List (String × service) → List (String × service)
  | [] => []
  | (k, s) :: rest =>
    if k = sname then (k, ⟨s.name, s.rcvr, s.typ, countCallIn mname s.method⟩) :: rest
    else (k, s) :: countCallAt sname mname rest

/-! ## Parameter coercion -/

/-- The result of coercing one parameter. -/
inductive Coerced where
  | value (v : Value)
  | mismatch
  | panic (p : Panic)

/-- The integer-family kinds that accept a JSON number. -/
def integerKind (k : Kind) : Bool :=
  k = Kind.Int || k = Kind.Int8 || k = Kind.Int16 || k = Kind.Int32 || k = Kind.Int64

/-- The body of the loop of `getParams` for one position: the parameter pointer `param`
(`params[i]`) coerced to the declared type `argType`. -/
def coerce (unmarshal : Unmarshal) (argType : RType) (param : Option JSON) : Coerced :=
  if argType.kind = Kind.Ptr then
    match param with
    | none => .panic .nilDereference
    | some raw =>
      match unmarshal argType raw with
      | none => .mismatch
      | some d => .value ⟨argType, d⟩
  else
    match param with
    | none => .panic .nilDereference
    | some raw =>
      match unmarshalInterface raw with
      | none => .mismatch
      | some none => .panic .zeroValueType
      | some (some value) =>
        if value.typ = argType then .value value
        else if value.typ.kind = Kind.Float32 ∨ value.typ.kind = Kind.Float64 then
          if integerKind argType.kind then
            match value.data with
            | .float f => .value ⟨.basic Kind.Int, .int f.toInt⟩
            | _ => .panic .typeAssertion
          else .mismatch
        else .mismatch

/-- The result of `getParams`: the arguments, an error, or a panic. -/
inductive Params where
  | args (l : List Value)
  | error (msg : String)
  | panic (p : Panic)

/-- The loop of `getParams` from position `i` on, `args` being the arguments built so
far. -/
def getParamsLoop (unmarshal : Unmarshal) (params : List (Option JSON)) :
    Nat → List RType → List Value → Params
  | _, [], args => .args args
  | i, argType :: rest, args =>
    match params.get? i with
    | none => .panic (.indexOutOfRange i params.length)
    | some param =>
      match coerce unmarshal argType param with
      | .value v => getParamsLoop unmarshal params (i + 1) rest (args ++ [v])
      | .mismatch => .error ("Type mismatch parameter " ++ strconv.Itoa (i + 1) ++ ".")
      | .panic p => .panic p

/-- The function `getParams`. -/
def getParams (unmarshal : Unmarshal) (req : jsonRequest) (argTypes : List RType) : Params :=
  match req.Params with
  | none => .panic .nilDereference
  | some raw =>
    match unmarshalRawSlice raw with
    | .error msg => .error msg
    | .ok params =>
      if params.length ≠ argTypes.length then .error "Incorrect number of parameters."
      else getParamsLoop unmarshal params 0 argTypes []

/-! ## Dispatch -/

/-- The bytes `sendError` writes for the message `s`. -/
def errorText (s : String) : String :=
  "\x7b\"jsonrpc\": \"2.0\", \"id\":null, \"error\":\"" ++ s ++ "\"\x7d"

/-- The function `sendError`. -/
def sendError (w : ResponseWriter) (s : String) : ResponseWriter :=
  w ++ [.setHeader "Content-Type" "application/json; charset=utf-8", .write (.raw (errorText s))]

/-- The first position at which an argument's type differs from the input type, with
the two types. -/
def firstMisuse : Nat → List Value → List RType → Option (Nat × RType × RType)
  | i, a :: as, t :: ts => if a.typ = t then firstMisuse (i + 1) as ts else some (i, a.typ, t)
  | _, _, _ => none

/-- The method `Call` of `reflect.Value` on the function of `m`: a panic when the number
of arguments is not the number of inputs or an argument cannot be used as its input type,
else the values the function returns. An argument can be used when its type is
the input type: every value that `getParams` builds has the declared type itself or the
predeclared type `int`, and `int` is assignable to no other type of an integer kind, so
for these values (and for the receiver that `register` stored with the method) the
assignability `Call` asks for is the identity of the two types. -/
def Method.Call (m : Method) (args : List Value) : Except Panic (List Value) :=
  if args.length ≠ m.In.length then .error (.callArity args.length m.In.length)
  else
    match firstMisuse 0 args m.In with
    | some (i, given, want) => .error (.callUsing i given want)
    | none => .ok (m.Func args)

/-- One invocation of a registered method. -/
structure Invocation where
  service : String
  method : String
  args : List Value

/-- What one request leaves behind: the server (with its counters), the response writer
and the invocations made. -/
structure Outcome where
  server : Server
  w : ResponseWriter
  calls : List Invocation

/-- The result of `ServeHTTP`: it returns, or it panics in the given state. -/
inductive Served where
  | returned (o : Outcome)
  | panicked (p : Panic) (o : Outcome)

/-- The lines of `ServeHTTP` that read the message of the status value: the empty text
for the nil interface, `Error()` of an error, and a failed type assertion for a value
that is no error. -/
def errorMessage (status : Value) : Except Panic String :=
  match status.data with
  | .nil => .ok ""
  | .error msg => .ok msg
  | _ => .error .typeAssertion

/-- Whether `json.Marshal` accepts the value: its type is no channel, function or
complex number, and it holds neither an infinity, nor a value that is not a number, nor
anything else that `json.Marshal` refuses. -/
def Value.marshals (v : Value) : Bool :=
  match v.data with
  | .infinity _ => false
  | .nan => false
  | .unsupported => false
  | _ =>
    !(v.typ.kind = Kind.Chan || v.typ.kind = Kind.Func || v.typ.kind = Kind.Complex64 ||
      v.typ.kind = Kind.Complex128)

/-- Whether `json.Marshal` accepts the response envelope: the id is raw JSON and the
error a string, so the result decides. -/
def jsonResponse.marshals (resp : jsonResponse) : Bool :=
  match resp.Result with
  | none => true
  | some v => v.marshals

/-- The last lines of `ServeHTTP`: the content type is set and `enc.Encode(resp)` is
called, whose error is dropped. `Encode` writes the body when `resp` can be marshalled
and writes nothing when it cannot. -/
def encode (w : ResponseWriter) (resp : jsonResponse) : ResponseWriter :=
  if resp.marshals then
    w ++ [.setHeader "Content-Type" "application/json; charset=utf-8", .write (.encoded resp)]
  else w ++ [.setHeader "Content-Type" "application/json; charset=utf-8"]

/-- The method `ServeHTTP`. -/
def ServeHTTP (unmarshal : Unmarshal) (server : Server) (w : ResponseWriter) (body : Body) :
    Served :=
  match Decode body with
  | none => .returned ⟨server, sendError w "Invalid JSON-RPC.", []⟩
  | some req =>
    let serviceMethod := strings.Split req.Method '.'
    match serviceMethod.get? 0 with
    | none => .panicked (.indexOutOfRange 0 serviceMethod.length) ⟨server, w, []⟩
    | some sname =>
      match server.serviceMap.lookup sname with
      | none => .returned ⟨server, sendError w "Service not found.", []⟩
      | some service =>
        match serviceMethod.get? 1 with
        | none => .panicked (.indexOutOfRange 1 serviceMethod.length) ⟨server, w, []⟩
        | some mname =>
          match service.method.lookup mname with
          | none => .returned ⟨server, sendError w "Method not found.", []⟩
          | some mtype =>
            match getParams unmarshal req mtype.argTypes with
            | .panic p => .panicked p ⟨server, w, []⟩
            | .error msg => .returned ⟨server, sendError w msg, []⟩
            | .args args =>
              let args := service.rcvr :: args
              let counted : Server := ⟨countCallAt sname mname server.serviceMap⟩
              match mtype.method.Call args with
              | .error p => .panicked p ⟨counted, w, []⟩
              | .ok returnValues =>
                let calls : List Invocation := [⟨sname, mname, args⟩]
                match returnValues.get? 1 with
                | none =>
                  .panicked (.indexOutOfRange 1 returnValues.length) ⟨counted, w, calls⟩
                | some status =>
                  match errorMessage status with
                  | .error p => .panicked p ⟨counted, w, calls⟩
                  | .ok errmsg =>
                    if errmsg ≠ "" then
                      .returned ⟨counted, encode w ⟨req.Id, none, some errmsg⟩, calls⟩
                    else
                      match returnValues.get? 0 with
                      | none =>
                        .panicked (.indexOutOfRange 0 returnValues.length)
                          ⟨counted, w, calls⟩
                      | some result =>
                        .returned ⟨counted, encode w ⟨req.Id, some result, none⟩, calls⟩

/-! ## The response as a client reads it -/

/-- The bytes `sendError` writes before the message. -/
def envelopeHead : List Char := "\x7b\"jsonrpc\": \"2.0\", \"id\":null, \"error\":\"".data

/-- The bytes `sendError` writes after the message. -/
def envelopeTail : List Char := "\"\x7d".data

/-- A character that stands for itself inside a JSON string: no quote, no backslash, no
control character. -/
def plainRune (c : Char) : Bool := c ≠ '"' && c ≠ '\\' && 32 ≤ c.toNat

/-- The envelope read from raw bytes of the shape `sendError` writes, the message being
plain text: the id is `null`, there is no result, and the error is the message. -/
def readRaw (bytes : String) : Option jsonResponse :=
  if envelopeHead.isPrefixOf bytes.data then
    let rest := bytes.data.drop envelopeHead.length
    if envelopeTail.isSuffixOf rest then
      let msg := rest.take (rest.length - envelopeTail.length)
      if msg.all plainRune then some ⟨none, none, some (String.mk msg)⟩ else none
    else none
  else none

/-- The envelope one chunk carries. -/
def Chunk.envelope : Chunk → Option jsonResponse
  | .raw bytes => readRaw bytes
  | .encoded resp => some resp

/-- The last chunk written to the body. -/
def lastWritten : ResponseWriter → Option Chunk
  | [] => none
  | .write c :: rest =>
    match lastWritten rest with
    | some d => some d
    | none => some c
  | .setHeader _ _ :: rest => lastWritten rest

/-- The value of the header `key`: that of the last `Set`. -/
def headerOf (key : String) : ResponseWriter → Option String
  | [] => none
  | .setHeader k v :: rest =>
    match headerOf key rest with
    | some u => some u
    | none => if k = key then some v else none
  | .write _ :: rest => headerOf key rest

/-- The response envelope of a request that returned: the one its last write carries. -/
def Served.reply : Served → Option jsonResponse
  | .returned o => (lastWritten o.w).bind Chunk.envelope
  | .panicked _ _ => none

/-- The invocations a request made. -/
def Served.calls : Served → List Invocation
  | .returned o => o.calls
  | .panicked _ o => o.calls

/-! ## Example services -/

/-- The JSON number of an integer. -/
def num (n : Int) : JSON := .number ⟨n, 0⟩

/-- The type `float64`. -/
def float64T : RType := .basic Kind.Float64

/-- The type `string`. -/
def stringT : RType := .basic Kind.String

/-- The type `int64`. -/
def int64T : RType := .basic Kind.Int64

/-- The nil `error`. -/
def nilError : Value := ⟨typeOfOsError, .nil⟩

/-- The type `TestService` of the test file (`type TestService int`). -/
def TestService : RType := .defined "goajax" "TestService" (.basic Kind.Int)

/-- The method `Add` of `*TestService`: `return a + b, nil`, on the finite numbers that
`getParams` builds. -/
def TestService.Add : Method :=
  ⟨"Add", [.ptr TestService, float64T, float64T], [float64T, typeOfOsError], fun args =>
    match args with
    | [_, ⟨_, .float a⟩, ⟨_, .float b⟩] => [⟨float64T, a.add b⟩, nilError]
    | _ => []⟩

/-- The type `Terminal` of the terminal example (`type Terminal int`). -/
def Terminal : RType := .defined "main" "Terminal" (.basic Kind.Int)

/-- The method `Login` of `*Terminal`: the token for the demo account, else the error
`Wrong password`. -/
def Terminal.Login : Method :=
  ⟨"Login", [.ptr Terminal, stringT, stringT], [stringT, typeOfOsError], fun args =>
    match args with
    | [_, ⟨_, .string username⟩, ⟨_, .string password⟩] =>
      if username = "demo" ∧ password = "demo" then [⟨stringT, .string "token-1234"⟩, nilError]
      else [⟨stringT, .string ""⟩, ⟨typeOfOsError, .error "Wrong password"⟩]
    | _ => []⟩

/-- A service type `type Quiet int` for the method below. -/
def Quiet : RType := .defined "main" "Quiet" (.basic Kind.Int)

/-- A method `func (q *Quiet) Fail() (string, error)` that returns
`"partial", errors.New("")`: a failure whose message is empty. -/
def Quiet.Fail : Method :=
  ⟨"Fail", [.ptr Quiet], [stringT, typeOfOsError], fun _ =>
    [⟨stringT, .string "partial"⟩, ⟨typeOfOsError, .error ""⟩]⟩

/-- A service type `type Calc int` for the method below. -/
def Calc : RType := .defined "main" "Calc" (.basic Kind.Int)

/-- A method `func (c *Calc) Echo(n int64) (int64, error)` that returns `n, nil`. -/
def Calc.Echo : Method :=
  ⟨"Echo", [.ptr Calc, int64T], [int64T, typeOfOsError], fun args =>
    match args with
    | [_, n] => [⟨int64T, n.data⟩, nilError]
    | _ => []⟩

/-- The service record that `register` builds for a receiver of type `*t` with the one
method `m`. -/
def serviceOf (name : String) (t : RType) (m : Method) : service :=
  ⟨name, ⟨.ptr t, .int 0⟩, .ptr t, [(m.Name, ⟨m, m.In.tail, m.Out.headD (.basic Kind.Invalid), 0⟩)]⟩

/-- A server holding the four example services, each with its one method. -/
def exampleServer : Server :=
  ⟨[("TestService", serviceOf "TestService" TestService TestService.Add),
    ("Terminal", serviceOf "Terminal" Terminal Terminal.Login),
    ("Quiet", serviceOf "Quiet" Quiet Quiet.Fail),
    ("Calc", serviceOf "Calc" Calc Calc.Echo)]⟩

/-- No pointer parameter is decoded: an `Unmarshal` for services without such
parameters. -/
def noPointers : Unmarshal := fun _ _ => none

/-- The body `\x7b"jsonrpc": "2.0", "method": m, "params": params, "id": 0\x7d` of the
test file. -/
def call (m : String) (params : JSON) : Body :=
  some (.object [("jsonrpc", .string "2.0"), ("method", .string m), ("params", params),
    ("id", num 0)])

/-- What the request for `TestService.Add` with the params `[40, 2]` leaves behind on
the example server: one call counted, the response with id 0 and result 42, and the one
invocation. -/
def addOutcome : Outcome :=
  ⟨⟨countCallAt "TestService" "Add" exampleServer.serviceMap⟩,
    encode [] ⟨some (num 0), some ⟨float64T, .float ⟨42, 0⟩⟩, none⟩,
    [⟨"TestService", "Add",
      [⟨.ptr TestService, .int 0⟩, ⟨float64T, .float ⟨40, 0⟩⟩, ⟨float64T, .float ⟨2, 0⟩⟩]⟩]⟩

/-- The parameter pointers `ps` coerce, position by position and in order, to the
arguments `as`, each of the declared type of its position in `ts`. -/
inductive Coerces (unmarshal : Unmarshal) : List RType → List (Option JSON) → List Value → Prop where
  | nil : Coerces unmarshal [] [] []
  | cons {t : RType} {p : Option JSON} {a : Value} {ts : List RType} {ps : List (Option JSON)}
      {as : List Value} (hcoerce : coerce unmarshal t p = .value a) (htyp : a.typ = t)
      (hrest : Coerces unmarshal ts ps as) : Coerces unmarshal (t :: ts) (p :: ps) (a :: as)

/-! ## Registration -/

/-- The name of a predeclared type of the given kind, empty for the kinds that have no
predeclared type. -/
def kindName : Kind → String
  | .Bool => "bool"
  | .Int => "int"
  | .Int8 => "int8"
  | .Int16 => "int16"
  | .Int32 => "int32"
  | .Int64 => "int64"
  | .Uint => "uint"
  | .Uint8 => "uint8"
  | .Uint16 => "uint16"
  | .Uint32 => "uint32"
  | .Uint64 => "uint64"
  | .Uintptr => "uintptr"
  | .Float32 => "float32"
  | .Float64 => "float64"
  | .Complex64 => "complex64"
  | .Complex128 => "complex128"
  | .String => "string"
  | _ => ""

/-- The method `Name()` of `reflect.Type`: the name of a predeclared or defined type,
empty for an unnamed type. -/
def RType.Name : RType → String
  | .basic k => kindName k
  | .defined _ name _ => name
  | _ => ""

/-- The method `PkgPath()` of `reflect.Type`: the package path of a defined type, empty
for a predeclared type and for an unnamed type such as `*T`. -/
def RType.PkgPath : RType → String
  | .defined pkgPath _ _ => pkgPath
  | _ => ""

/-- The method `Elem()` of `reflect.Type`. The source calls it on types of kind `Ptr`
only; on a type that has no element, where Go panics, the type itself is returned. -/
def RType.Elem : RType → RType
  | .ptr elem => elem
  | .slice elem => elem
  | .map _ elem => elem
  | .defined _ _ underlying => underlying.Elem
  | t => t

/-- The function `isExported`: whether the first rune of the name is an upper-case
letter. The table of `unicode.IsUpper` is the parameter `IsUpper`; the empty name decodes
to the rune U+FFFD. -/
def isExported (IsUpper : Char → Bool) (name : String) : Bool :=
  match name.data with
  | [] => IsUpper (Char.ofNat 0xFFFD)
  | rune :: _ => IsUpper rune

/-- The object handed to `register`: its value (`reflect.ValueOf(rcvr)`, whose type is
`reflect.TypeOf(rcvr)`) and the methods `s.typ.Method(0)`, `s.typ.Method(1)`, ... of its
type, in the order `reflect` gives them. -/
structure Object where
  value : Value
  methods : List Method

/-- The type `method.Type` of a method: an unnamed func type, whose signature text is
not rendered. -/
def Method.typ (_m : Method) : RType := .literal Kind.Func "func"

/-- The expression `reflect.Indirect(s.rcvr).Type().Name()`: the name of the pointed-to
type for a pointer, of the type itself otherwise. `Indirect` of a nil pointer is the zero
`Value`, on which `Type` panics. -/
def indirectTypeName (rcvr : Value) : Except Panic String :=
  if rcvr.typ.kind = Kind.Ptr then
    match rcvr.data with
    | .nil => .error .zeroValueType
    | _ => .ok rcvr.typ.Elem.Name
  else .ok rcvr.typ.Name

/-- The inner loop of `register` over the parameter types of a method, receiver
excluded: the list `args`, or `none` when the loop leaves with `continue MethodLoop`
because a pointer parameter points to a type that is neither exported nor builtin. -/
def argsOf (IsUpper : Char → Bool) : List RType → Option (List RType)
  | [] => some []
  | argType :: rest =>
    if argType.kind = Kind.Ptr ∧ argType.Elem.PkgPath ≠ "" ∧
        isExported IsUpper argType.Elem.Name = false then none
    else (argsOf IsUpper rest).map fun args => argType :: args

/-- The body of the loop `MethodLoop` of `register` for one method: the record
installed for it, or `none` when the method is skipped. -/
def methodRecord (IsUpper : Char → Bool) (method : Method) : Option methodType :=
  if method.typ.PkgPath ≠ "" ∨ isExported IsUpper method.Name = false then none
  else
    match argsOf IsUpper (method.In.drop 1) with
    | none => none
    | some args =>
      match method.Out with
      | [returnType, errorType] =>
        if returnType.kind = Kind.Ptr ∧ returnType.Elem.PkgPath ≠ "" ∧
            isExported IsUpper returnType.Elem.Name = false then none
        else if errorType ≠ typeOfOsError then none
        else some ⟨method, args, returnType, 0⟩
      | _ => none

/-- The loop `MethodLoop` of `register` over the methods still to visit, `table` being
the map `s.method` so far. An assignment `s.method[mname] = ...` puts the entry in
front, where it is the one the key reads. -/
def MethodLoop (IsUpper : Char → Bool) :
    List Method → List (String × methodType) → List (String × methodType)
  | [], table => table
  | method :: rest, table =>
    match methodRecord IsUpper method with
    | none => MethodLoop IsUpper rest table
    | some mtype => MethodLoop IsUpper rest ((method.Name, mtype) :: table)

/-- The result of `register`: it returns an error (`none` for nil) and leaves the given
server, or the process exits in `log.Fatalln` on the type without a service name, or
the call panics. The lines it logs are not modelled. -/
inductive Registered where
  | returned (err : Option String) (server : Server)
  | exited (typ : RType)
  | panicked (p : Panic)

/-- The method `register`. A nil interface as receiver (`none`) has no type, and `Type`
panics on it. -/
def register (IsUpper : Char → Bool) (server : Server) (rcvr : Option Object) (name : String)
    (useName : Bool) : Registered :=
  match rcvr with
  | none => .panicked .zeroValueType
  | some obj =>
    match indirectTypeName obj.value with
    | .error p => .panicked p
    | .ok typeName =>
      let sname := if useName then name else typeName
      if sname = "" then .exited obj.value.typ
      else if obj.value.typ.PkgPath ≠ "" ∧ isExported IsUpper sname = false ∧ useName = false then
        .returned (some ("rpc Register: type " ++ sname ++ " is not exported")) server
      else if (server.serviceMap.lookup sname).isSome then
        .returned (some ("rpc: service already defined: " ++ sname)) server
      else
        let method := MethodLoop IsUpper obj.methods []
        if method.length = 0 then
          .returned (some ("rpc Register: type " ++ sname ++
            " has no exported methods of suitable type")) server
        else
          .returned none
            ⟨(sname, ⟨sname, obj.value, obj.value.typ, method⟩) :: server.serviceMap⟩

/-- The method `Register`. -/
def Register (IsUpper : Char → Bool) (server : Server) (rcvr : Option Object) : Registered :=
  register IsUpper server rcvr "" false

/-- The method `RegisterName`. -/
def RegisterName (IsUpper : Char → Bool) (server : Server) (name : String)
    (rcvr : Option Object) : Registered :=
  register IsUpper server rcvr name true

/-- The service name a `register` call resolves: the explicit name when one is given,
else the name of the object's type behind one pointer. -/
def resolvedName (obj : Object) (name : String) (useName : Bool) : Except Panic String :=
  match indirectTypeName obj.value with
  | .error p => .error p
  | .ok typeName => .ok (if useName then name else typeName)

/-- The state a request leaves, whether `ServeHTTP` returned or panicked. -/
def Served.outcome : Served → Outcome
  | .returned o => o
  | .panicked _ o => o

/-- The servers of a run: the new server, and every server that a `register` call that
returned, or a request, leaves. -/
inductive Reachable (IsUpper : Char → Bool) : Server → Prop where
  | new : Reachable IsUpper NewServer
  | register {server after : Server} {rcvr : Option Object} {name : String} {useName : Bool}
      {err : Option String} (hserver : Reachable IsUpper server)
      (hcall : register IsUpper server rcvr name useName = .returned err after) :
      Reachable IsUpper after
  | serve {server : Server} (unmarshal : Unmarshal) (w : ResponseWriter) (body : Body)
      (hserver : Reachable IsUpper server) :
      Reachable IsUpper (ServeHTTP unmarshal server w body).outcome.server

/-- The counter `numCalls` that the keys `sname` and `mname` read, if any. -/
def numCallsOf (server : Server) (sname mname : String) : Option Nat :=
  ((server.serviceMap.lookup sname).bind fun s => s.method.lookup mname).map fun m => m.numCalls

/-! ### The validation rule in the words of the specification -/

/-- A type is exported or builtin: it has no package path, or its name is exported. -/
def exportedOrBuiltin (IsUpper : Char → Bool) (t : RType) : Bool :=
  t.PkgPath = "" || isExported IsUpper t.Name

/-- The per-method validation as the specification words it: the name is exported; every
pointer-typed parameter (receiver excluded) points to an exported or builtin type; there
are exactly two return values; a pointer-typed first return value points to an exported
or builtin type; the second return type is exactly the error type. -/
def passesValidation (IsUpper : Char → Bool) (m : Method) : Bool :=
  isExported IsUpper m.Name &&
  (m.In.drop 1).all (fun t => decide (t.kind = Kind.Ptr → exportedOrBuiltin IsUpper t.Elem = true)) &&
  decide (m.Out.length = 2) &&
  (m.Out.get? 0).all (fun t => decide (t.kind = Kind.Ptr → exportedOrBuiltin IsUpper t.Elem = true)) &&
  decide (m.Out.get? 1 = some typeOfOsError)

/-! ### Example objects -/

/-- The table `unicode.IsUpper` on the ASCII letters, which is where the names of the
examples lie. -/
def isUpperASCII : Char → Bool := Char.isUpper

/-- The type `A` of the test file (`struct` with the fields `X string` and `Y int`). A
pointer to an `A` holds the tree of the members `x` and `y`. -/
def A : RType := .defined "goajax" "A" (.literal Kind.Struct "struct \x7b X string; Y int \x7d")

/-- The value `&A\x7bX: x, Y: y\x7d`. -/
def newA (x : String) (y : Int) : Value :=
  ⟨.ptr A, .tree (.object [("x", .string x), ("y", num y)])⟩

/-- The method `Repeat` of `*TestService`: `obj.X` repeated `obj.Y` times. -/
def TestService.Repeat : Method :=
  ⟨"Repeat", [.ptr TestService, .ptr A], [stringT, typeOfOsError], fun args =>
    match args with
    | [_, ⟨_, .tree (.object [(_, .string x), (_, .number y)])⟩] =>
      [⟨stringT, .string (String.join (List.replicate y.toInt.toNat x))⟩, nilError]
    | _ => []⟩

/-- The method `ObjAdd` of `*TestService`: the texts joined and the numbers added. -/
def TestService.ObjAdd : Method :=
  ⟨"ObjAdd", [.ptr TestService, .ptr A, .ptr A], [.ptr A, typeOfOsError], fun args =>
    match args with
    | [_, ⟨_, .tree (.object [(_, .string x1), (_, .number y1)])⟩,
        ⟨_, .tree (.object [(_, .string x2), (_, .number y2)])⟩] =>
      [newA (x1 ++ x2) (y1.toInt + y2.toInt), nilError]
    | _ => []⟩

/-- The method `Unrepeat` of `*TestService`: the first `j` from 1 below half the length
such that the first `j` runes equal the next `j` gives the text of these runes and the
length divided by `j`; without such a `j` the text itself and 1. -/
def TestService.Unrepeat : Method :=
  ⟨"Unrepeat", [.ptr TestService, stringT], [.ptr A, typeOfOsError], fun args =>
    match args with
    | [_, ⟨_, .string text⟩] =>
      let runes := text.data
      match (List.range (runes.length / 2)).find? fun i =>
          decide (1 ≤ i) && decide (runes.take i = (runes.drop i).take i) with
      | some j => [newA (String.mk (runes.take j)) (runes.length / j), nilError]
      | none => [newA text 1, nilError]
    | _ => []⟩

/-- The object `new(TestService)` of the test file, with its four methods in the order
of their names. -/
def newTestService : Object :=
  ⟨⟨.ptr TestService, .int 0⟩,
    [TestService.Add, TestService.ObjAdd, TestService.Repeat, TestService.Unrepeat]⟩

/-- The method `Ls` of `*Terminal`, which returns the slice `a`, `b`, `c`. -/
def Terminal.Ls : Method :=
  ⟨"Ls", [.ptr Terminal, stringT], [.slice stringT, typeOfOsError], fun _ =>
    [⟨.slice stringT, .tree (.array [.string "a", .string "b", .string "c"])⟩, nilError]⟩

/-- The method `Help` of `*Terminal`. -/
def Terminal.Help : Method :=
  ⟨"Help", [.ptr Terminal], [stringT, typeOfOsError], fun _ =>
    [⟨stringT, .string "Help\nHelp\nHelp\n"⟩, nilError]⟩

/-- The object `new(Terminal)` of the terminal example, with its three methods in the
order of their names. -/
def newTerminal : Object :=
  ⟨⟨.ptr Terminal, .int 0⟩, [Terminal.Help, Terminal.Login, Terminal.Ls]⟩

/-- The server of the terminal example after `s.Register(new(Terminal))`. -/
def terminalServer : Server :=
  ⟨[("Terminal", ⟨"Terminal", ⟨.ptr Terminal, .int 0⟩, .ptr Terminal,
      [("Ls", ⟨Terminal.Ls, [stringT], .slice stringT, 0⟩),
        ("Login", ⟨Terminal.Login, [stringT, stringT], stringT, 0⟩),
        ("Help", ⟨Terminal.Help, [], stringT, 0⟩)]⟩)]⟩

/-- A type `type console int` whose name is not exported. -/
def console : RType := .defined "main" "console" (.basic Kind.Int)

/-- A method `func (c *console) Help() (string, error)`. -/
def console.Help : Method :=
  ⟨"Help", [.ptr console], [stringT, typeOfOsError], fun _ =>
    [⟨stringT, .string "Help"⟩, nilError]⟩

/-- The object `new(console)`. -/
def newConsole : Object := ⟨⟨.ptr console, .int 0⟩, [console.Help]⟩

/-- A type `type Plain int` with no method that qualifies: its one method
`func (p *Plain) Size() int` returns a single value. -/
def Plain : RType := .defined "main" "Plain" (.basic Kind.Int)

/-- The method `Size` of `*Plain`. -/
def Plain.Size : Method :=
  ⟨"Size", [.ptr Plain], [.basic Kind.Int], fun _ => [⟨.basic Kind.Int, .int 0⟩]⟩

/-- The object `new(Plain)`. -/
def newPlain : Object := ⟨⟨.ptr Plain, .int 0⟩, [Plain.Size]⟩

/-- The body of a request for `TestService.Add` that has no `params` member. -/
def callWithoutParams : Body :=
  some (.object [("jsonrpc", .string "2.0"), ("method", .string "TestService.Add"),
    ("id", num 0)])

/-- An object of a type `TestService` that has the one method `Add`. -/
def addOnly : Object := ⟨⟨.ptr TestService, .int 0⟩, [TestService.Add]⟩

/-- The server that holds the object `addOnly` under `TestService`, the counter of `Add`
at `n`. -/
def addServerAt (n : Nat) : Server :=
  ⟨[("TestService", ⟨"TestService", ⟨.ptr TestService, .int 0⟩, .ptr TestService,
      [("Add", ⟨TestService.Add, [float64T, float64T], float64T, n⟩)]⟩)]⟩

/-- The server after `Register(addOnly)` and 2^64 - 1 calls of `TestService.Add`: the
counter of `Add` holds the largest `uint`. -/
def busyServer : Server := addServerAt (2 ^ 64 - 1)

/-- The new server after `RegisterName("service", new(TestService))`. -/
def serviceServer : Server :=
  ⟨[("service", ⟨"service", newTestService.value, newTestService.value.typ,
      MethodLoop isUpperASCII newTestService.methods []⟩)]⟩

/-- The method whose call a request reaches on the server: the keys of the service and
of the method when the body decodes, the names resolve and `getParams` returns the
arguments; `none` when the request ends before. -/
def reached (unmarshal : Unmarshal) (server : Server) (body : Body) : Option (String × String) :=
  match Decode body with
  | none => none
  | some req =>
    match strings.Split req.Method '.' with
    | sname :: mname :: _ =>
      match server.serviceMap.lookup sname with
      | none => none
      | some svc =>
        match svc.method.lookup mname with
        | none => none
        | some mtype =>
          match getParams unmarshal req mtype.argTypes with
          | .args _ => some (sname, mname)
          | _ => none
    | _ => none

/-- The server after a sequence of requests, served in order. -/
def serveAll (unmarshal : Unmarshal) : Server → List (ResponseWriter × Body) → Server
  | server, [] => server
  | server, (w, body) :: rest =>
    serveAll unmarshal (ServeHTTP unmarshal server w body).outcome.server rest

/-- The number of requests of a sequence that reach the call of the method `m` of the
service `s`. -/
def reachedCount (unmarshal : Unmarshal) (s m : String) :
    Server → List (ResponseWriter × Body) → Nat
  | _, [] => 0
  | server, (w, body) :: rest =>
    (if reached unmarshal server body = some (s, m) then 1 else 0) +
      reachedCount unmarshal s m (ServeHTTP unmarshal server w body).outcome.server rest

/-- The JSON number `1e308`, by the `float64` nearest to it. -/
def big : JSON := .number ⟨5010420900022432, 971⟩

/-- A service type `type Bad int` for the method below. -/
def Bad : RType := .defined "main" "Bad" (.basic Kind.Int)

/-- A method `func (b *Bad) Ch() (chan int, error)` that returns `make(chan int), nil`. -/
def Bad.Ch : Method :=
  ⟨"Ch", [.ptr Bad], [.literal Kind.Chan "chan int", typeOfOsError], fun _ =>
    [⟨.literal Kind.Chan "chan int", .unsupported⟩, nilError]⟩

/-- The object `new(Bad)`. -/
def newBad : Object := ⟨⟨.ptr Bad, .int 0⟩, [Bad.Ch]⟩

/-- The new server after `Register(new(Bad))`. -/
def badServer : Server :=
  ⟨[("Bad", ⟨"Bad", ⟨.ptr Bad, .int 0⟩, .ptr Bad,
      [("Ch", ⟨Bad.Ch, [], .literal Kind.Chan "chan int", 0⟩)]⟩)]⟩

/-- A type `type Mixed int` with one method that qualifies and one that does not. -/
def Mixed : RType := .defined "main" "Mixed" (.basic Kind.Int)

/-- The method `func (m *Mixed) Size() int`, which returns a single value. -/
def Mixed.Size : Method :=
  ⟨"Size", [.ptr Mixed], [.basic Kind.Int], fun _ => [⟨.basic Kind.Int, .int 0⟩]⟩

/-- The method `func (m *Mixed) Help() (string, error)`. -/
def Mixed.Help : Method :=
  ⟨"Help", [.ptr Mixed], [stringT, typeOfOsError], fun _ =>
    [⟨stringT, .string "Help"⟩, nilError]⟩

/-- The object `new(Mixed)`, with its two methods in the order of their names. -/
def newMixed : Object := ⟨⟨.ptr Mixed, .int 0⟩, [Mixed.Help, Mixed.Size]⟩

/-- The supported kind set in the words of the specification, read generously: string,
boolean, the integer family (signed and unsigned), the float family, and the structured
object kinds (a struct, and a pointer for the structure it points to). -/
def supportedKind (k : Kind) : Bool :=
  k = Kind.String || k = Kind.Bool || integerKind k ||
  k = Kind.Uint || k = Kind.Uint8 || k = Kind.Uint16 || k = Kind.Uint32 || k = Kind.Uint64 ||
  k = Kind.Float32 || k = Kind.Float64 || k = Kind.Struct || k = Kind.Ptr

/-! ## Facts about the library functions and the response view -/

theorem splitChars_ne_nil (sep : Char) (cs : List Char) : splitChars sep cs ≠ [] := by
  cases cs with
  | nil => simp [splitChars]
  | cons c cs =>
    unfold splitChars
    split
    · simp
    · split <;> simp

theorem Split_ne_nil (s : String) (sep : Char) : strings.Split s sep ≠ [] := by
  simp [strings.Split, splitChars_ne_nil]

theorem lastWritten_append (w : ResponseWriter) (k v : String) (c : Chunk) :
    lastWritten (w ++ [.setHeader k v, .write c]) = some c := by
  induction w with
  | nil => rfl
  | cons e w ih => cases e <;> simp [lastWritten, ih]

theorem errorText_data (s : String) :
    (errorText s).data = envelopeHead ++ (s.data ++ envelopeTail) := by
  simp [errorText, envelopeHead, envelopeTail, String.data_append, List.append_assoc]

theorem readRaw_errorText (s : String) (hs : s.data.all plainRune = true) :
    readRaw (errorText s) = some ⟨none, none, some s⟩ := by
  have hpre : envelopeHead.isPrefixOf (envelopeHead ++ (s.data ++ envelopeTail)) = true := by
    rw [List.isPrefixOf_iff_prefix]
    exact List.prefix_append _ _
  have hsuf : envelopeTail.isSuffixOf (s.data ++ envelopeTail) = true := by
    rw [List.isSuffixOf_iff_suffix]
    exact List.suffix_append _ _
  unfold readRaw
  rw [errorText_data, if_pos hpre]
  simp only [List.drop_left]
  rw [if_pos hsuf]
  simp [hs]

/-- The sums `0.1 + 0.2` (rounded up to `0.30000000000000004`), `2 ^ 53 + 1` (a tie,
rounded to the even `2 ^ 53`), `2 ^ 53 + 3` (a tie, rounded to the even `2 ^ 53 + 4`),
`40 + 2`, and `1e308 + 1e308` and its negative, which overflow. -/
theorem float64_add_examples :
    float64.add ⟨3602879701896397, -55⟩ ⟨3602879701896397, -54⟩
        = .float ⟨5404319552844596, -54⟩ ∧
      float64.add ⟨9007199254740992, 0⟩ ⟨1, 0⟩ = .float ⟨4503599627370496, 1⟩ ∧
      float64.add ⟨9007199254740992, 0⟩ ⟨3, 0⟩ = .float ⟨4503599627370498, 1⟩ ∧
      float64.add ⟨40, 0⟩ ⟨2, 0⟩ = .float ⟨42, 0⟩ ∧
      float64.add ⟨5010420900022432, 971⟩ ⟨5010420900022432, 971⟩ = .infinity false ∧
      float64.add ⟨-5010420900022432, 971⟩ ⟨-5010420900022432, 971⟩ = .infinity true :=
  ⟨rfl, rfl, rfl, rfl, rfl, rfl⟩

theorem reply_sendError (server : Server) (w : ResponseWriter) (s : String)
    (hs : s.data.all plainRune = true) :
    (Served.returned ⟨server, sendError w s, []⟩).reply = some ⟨none, none, some s⟩ := by
  simp [Served.reply, sendError, lastWritten_append, Chunk.envelope, readRaw_errorText s hs]

theorem reply_encode (server : Server) (w : ResponseWriter) (resp : jsonResponse)
    (calls : List Invocation) (hresp : resp.marshals = true) :
    (Served.returned ⟨server, encode w resp, calls⟩).reply = some resp := by
  simp [Served.reply, encode, hresp, lastWritten_append, Chunk.envelope]

theorem encode_refused (w : ResponseWriter) (resp : jsonResponse)
    (hresp : resp.marshals = false) :
    encode w resp = w ++ [.setHeader "Content-Type" "application/json; charset=utf-8"] := by
  simp [encode, hresp]

theorem digitChar_plain : ∀ m < 10, plainRune (Nat.digitChar m) = true := by decide

theorem toDigitsCore_plain (fuel : Nat) : ∀ (n : Nat) (ds : List Char),
    (∀ c ∈ ds, plainRune c = true) →
    ∀ c ∈ Nat.toDigitsCore 10 fuel n ds, plainRune c = true := by
  induction fuel with
  | zero => intro n ds hds c hc; exact hds c (by simpa [Nat.toDigitsCore] using hc)
  | succ fuel ih =>
    intro n ds hds c hc
    have hd : plainRune (Nat.digitChar (n % 10)) = true :=
      digitChar_plain _ (Nat.mod_lt _ (by decide))
    have hcons : ∀ c ∈ Nat.digitChar (n % 10) :: ds, plainRune c = true := by
      intro c hc
      rcases List.mem_cons.mp hc with rfl | hc
      · exact hd
      · exact hds c hc
    unfold Nat.toDigitsCore at hc
    dsimp only at hc
    split at hc
    · exact hcons c hc
    · exact ih _ _ hcons c hc

theorem Itoa_plain (n : Nat) : (strconv.Itoa n).data.all plainRune = true := by
  rw [List.all_eq_true]
  intro c hc
  exact toDigitsCore_plain _ n [] (by simp) c hc

theorem getParamsLoop_error_plain (unmarshal : Unmarshal) (params : List (Option JSON)) :
    ∀ (ts : List RType) (i : Nat) (acc : List Value) (msg : String),
    getParamsLoop unmarshal params i ts acc = .error msg → msg.data.all plainRune = true := by
  intro ts
  induction ts with
  | nil => intro i acc msg h; simp [getParamsLoop] at h
  | cons t ts ih =>
    intro i acc msg h
    unfold getParamsLoop at h
    split at h
    · cases h
    · split at h
      · exact ih _ _ _ h
      · cases h
        have h1 : ("Type mismatch parameter ".data).all plainRune = true := by decide
        have h2 : (".".data).all plainRune = true := by decide
        simp only [String.data_append, List.all_append, Itoa_plain, h1, h2, Bool.and_self]
      · cases h

theorem getParams_error_plain (unmarshal : Unmarshal) (req : jsonRequest) (ts : List RType)
    (msg : String) (h : getParams unmarshal req ts = .error msg) :
    msg.data.all plainRune = true := by
  unfold getParams at h
  cases hp : req.Params with
  | none => simp [hp] at h
  | some raw =>
    simp only [hp] at h
    cases raw with
    | array elems =>
      simp only [unmarshalRawSlice] at h
      split at h
      · cases h; decide
      · exact getParamsLoop_error_plain _ _ _ _ _ _ h
    | null =>
      simp only [unmarshalRawSlice] at h
      split at h
      · cases h; decide
      · exact getParamsLoop_error_plain _ _ _ _ _ _ h
    | bool b => simp only [unmarshalRawSlice] at h; cases h; decide
    | number f => simp only [unmarshalRawSlice] at h; cases h; decide
    | hugeNumber => simp only [unmarshalRawSlice] at h; cases h; decide
    | string t => simp only [unmarshalRawSlice] at h; cases h; decide
    | object ms => simp only [unmarshalRawSlice] at h; cases h; decide

theorem Coerces_length {unmarshal : Unmarshal} {ts : List RType} {ps : List (Option JSON)}
    {as : List Value} (h : Coerces unmarshal ts ps as) :
    ps.length = ts.length ∧ as.length = ts.length := by
  induction h with
  | nil => exact ⟨rfl, rfl⟩
  | cons _ _ _ ih => simp [ih.1, ih.2]

theorem getParamsLoop_coerces {unmarshal : Unmarshal} {ts : List RType}
    {ps : List (Option JSON)} {as : List Value} (h : Coerces unmarshal ts ps as) :
    ∀ (before : List (Option JSON)) (acc : List Value),
    getParamsLoop unmarshal (before ++ ps) before.length ts acc = .args (acc ++ as) := by
  induction h with
  | nil => intro before acc; simp [getParamsLoop]
  | @cons t p a ts ps as hcoerce _ _ ih =>
    intro before acc
    have hget : (before ++ p :: ps).get? before.length = some p := by
      rw [List.get?_eq_getElem?, List.getElem?_append_right (Nat.le_refl _)]
      simp
    have hnext := ih (before ++ [p]) (acc ++ [a])
    simp only [List.append_assoc, List.singleton_append, List.length_append,
      List.length_singleton] at hnext
    unfold getParamsLoop
    simp only [hget, hcoerce]
    exact hnext

theorem getParams_coerces {unmarshal : Unmarshal} {req : jsonRequest} {ts : List RType}
    {elems : List JSON} {as : List Value} (hparams : req.Params = some (.array elems))
    (h : Coerces unmarshal ts (elems.map rawPointer) as) :
    getParams unmarshal req ts = .args as := by
  have hlen := (Coerces_length h).1
  have hloop := getParamsLoop_coerces h [] []
  simp only [List.nil_append, List.length_nil] at hloop
  simp [getParams, hparams, unmarshalRawSlice, hlen, hloop]

theorem firstMisuse_coerces {unmarshal : Unmarshal} {ts : List RType}
    {ps : List (Option JSON)} {as : List Value} (h : Coerces unmarshal ts ps as) :
    ∀ i : Nat, firstMisuse i as ts = none := by
  induction h with
  | nil => intro i; simp [firstMisuse]
  | cons _ htyp _ ih => intro i; simp [firstMisuse, htyp, ih]

theorem Call_coerces {unmarshal : Unmarshal} {ts : List RType} {ps : List (Option JSON)}
    {as : List Value} (h : Coerces unmarshal ts ps as) (m : Method) (rcvr : Value)
    (hin : m.In = rcvr.typ :: ts) :
    m.Call (rcvr :: as) = .ok (m.Func (rcvr :: as)) := by
  simp [Method.Call, hin, (Coerces_length h).2, firstMisuse, firstMisuse_coerces h]

theorem getParamsLoop_append (unmarshal : Unmarshal) (params : List (Option JSON)) :
    ∀ (ts : List RType) (i : Nat) (acc done : List Value) (rest : List RType),
    getParamsLoop unmarshal params i ts acc = .args done →
    getParamsLoop unmarshal params i (ts ++ rest) acc
      = getParamsLoop unmarshal params (i + ts.length) rest done := by
  intro ts
  induction ts with
  | nil =>
    intro i acc done rest h
    simp only [getParamsLoop, Params.args.injEq] at h
    simp [h]
  | cons t ts ih =>
    intro i acc done rest h
    unfold getParamsLoop at h
    rw [List.cons_append]
    conv_lhs => unfold getParamsLoop
    split at h
    · cases h
    · rename_i param hparam
      split at h
      · rename_i v hv
        rw [ih _ _ _ rest h, List.length_cons, Nat.add_assoc, Nat.add_comm 1]
      · cases h
      · cases h

/-- When the parameters before a position are all accepted and the parameter at that
position is a mismatch, the loop fails with the message that names that position,
counted from 1; the later parameters are not looked at. -/
theorem getParamsLoop_first_mismatch (unmarshal : Unmarshal) (params : List (Option JSON))
    (ts : List RType) (t : RType) (rest : List RType) (done : List Value)
    (param : Option JSON)
    (hdone : getParamsLoop unmarshal params 0 ts [] = .args done)
    (hparam : params.get? ts.length = some param)
    (hbad : coerce unmarshal t param = .mismatch) :
    getParamsLoop unmarshal params 0 (ts ++ t :: rest) []
      = .error ("Type mismatch parameter " ++ strconv.Itoa (ts.length + 1) ++ ".") := by
  rw [getParamsLoop_append unmarshal params ts 0 [] done (t :: rest) hdone]
  unfold getParamsLoop
  simp only [Nat.zero_add, hparam, hbad]

/-- A JSON value other than `null` given to a parameter that is no pointer is a mismatch
when the type of its natural Go value is not the declared type, unless it is a number
for a parameter of an integer kind. -/
theorem coerce_mismatch (unmarshal : Unmarshal) (t : RType) (raw : JSON) (v : Value)
    (hkind : t.kind ≠ Kind.Ptr) (hv : unmarshalInterface raw = some (some v))
    (htyp : v.typ ≠ t)
    (hnum : ¬ (v.typ.kind = Kind.Float64 ∧ integerKind t.kind = true)) :
    coerce unmarshal t (some raw) = .mismatch := by
  have hf32 : v.typ.kind ≠ Kind.Float32 := by
    unfold unmarshalInterface at hv
    split at hv
    · cases raw <;> simp at hv <;> subst hv <;> simp [RType.kind]
    · cases hv
  unfold coerce
  simp only [hkind, if_false, hv, htyp]
  by_cases h64 : v.typ.kind = Kind.Float64
  · have hint : integerKind t.kind = false := by
      cases hi : integerKind t.kind with
      | false => rfl
      | true => exact absurd ⟨h64, hi⟩ hnum
    simp [h64, hint]
  · simp [h64, hf32]

/-- A JSON number given to a parameter declared `int` is accepted as the `int` that
the conversion from `float64` gives. -/
theorem coerce_number_int (unmarshal : Unmarshal) (f : float64) :
    coerce unmarshal (.basic Kind.Int) (some (.number f))
      = .value ⟨.basic Kind.Int, .int f.toInt⟩ := by
  simp [coerce, RType.kind, unmarshalInterface, JSON.fits, integerKind]

/-! ## Protocol errors -/

/-- C10: a request body that fails to decode as the envelope makes `ServeHTTP` write the
error response with the message `Invalid JSON-RPC.` and a null id, and nothing else
happens: the server, with its registry and call counters, is returned as it was and no
method is invoked. -/
theorem ServeHTTP_invalid_body (unmarshal : Unmarshal) (server : Server) (w : ResponseWriter)
    (body : Body) (hbody : Decode body = none) :
    ServeHTTP unmarshal server w body
        = .returned ⟨server, sendError w "Invalid JSON-RPC.", []⟩ ∧
      (ServeHTTP unmarshal server w body).reply
        = some ⟨none, none, some "Invalid JSON-RPC."⟩ := by
  have h : ServeHTTP unmarshal server w body
      = .returned ⟨server, sendError w "Invalid JSON-RPC.", []⟩ := by
    simp [ServeHTTP, hbody]
  exact ⟨h, by rw [h]; exact reply_sendError _ _ _ (by decide)⟩

/-- Witness of C10: the truncated body of the test file, and a body that holds a JSON
number instead of an envelope. -/
theorem ServeHTTP_invalid_body_witness :
    Decode none = none ∧
      (ServeHTTP noPointers exampleServer [] none
          = .returned ⟨exampleServer, sendError [] "Invalid JSON-RPC.", []⟩ ∧
        (ServeHTTP noPointers exampleServer [] none).reply
          = some ⟨none, none, some "Invalid JSON-RPC."⟩) :=
  ⟨rfl, ServeHTTP_invalid_body noPointers exampleServer [] none rfl⟩

/-- C7: when the service name of a decoded request, the segment of the method string
before its first dot, is no key of the service map, the response is the error
`Service not found.`; no method is invoked and the server is unchanged. -/
theorem ServeHTTP_service_not_found (unmarshal : Unmarshal) (server : Server)
    (w : ResponseWriter) (body : Body) (req : jsonRequest) (sname : String)
    (hreq : Decode body = some req)
    (hname : (strings.Split req.Method '.').head? = some sname)
    (habsent : server.serviceMap.lookup sname = none) :
    ServeHTTP unmarshal server w body
        = .returned ⟨server, sendError w "Service not found.", []⟩ ∧
      (ServeHTTP unmarshal server w body).reply
        = some ⟨none, none, some "Service not found."⟩ := by
  have h0 : (strings.Split req.Method '.')[0]? = some sname := by
    cases hsplit : strings.Split req.Method '.' with
    | nil => simp [hsplit] at hname
    | cons a l => simpa [hsplit] using hname
  have h : ServeHTTP unmarshal server w body
      = .returned ⟨server, sendError w "Service not found.", []⟩ := by
    simp [ServeHTTP, hreq, h0, habsent]
  exact ⟨h, by rw [h]; exact reply_sendError _ _ _ (by decide)⟩

/-- Witness of C7: the request for `OtherService.Add` of the test file. -/
theorem ServeHTTP_service_not_found_witness :
    ServeHTTP noPointers exampleServer [] (call "OtherService.Add" (.array [num 40, num 2]))
        = .returned ⟨exampleServer, sendError [] "Service not found.", []⟩ ∧
      (ServeHTTP noPointers exampleServer []
          (call "OtherService.Add" (.array [num 40, num 2]))).reply
        = some ⟨none, none, some "Service not found."⟩ :=
  ServeHTTP_service_not_found noPointers exampleServer []
    (call "OtherService.Add" (.array [num 40, num 2]))
    ⟨some (num 0), "OtherService.Add", some (.array [num 40, num 2])⟩ "OtherService"
    rfl rfl rfl

/-- C8, the code at the failing input: the method string `TestService` has no dot and is
the name of a registered service; `strings.Split` gives one segment, the service is
found, and the index `serviceMethod[1]` panics: no response is written. -/
theorem ServeHTTP_no_dot_panics :
    strings.Split "TestService" '.' = ["TestService"] ∧
      ServeHTTP noPointers exampleServer [] (call "TestService" (.array [num 40, num 2]))
        = .panicked (.indexOutOfRange 1 1) ⟨exampleServer, [], []⟩ :=
  ⟨rfl, rfl⟩

/-- C9 as stated fails: in `TestService.Add.x` the text after the first dot, `Add.x`, is
no key of the method table of `TestService`, yet the response is not `Method not found.`:
the method `Add` is invoked and its result 42 is returned. -/
theorem ServeHTTP_method_after_first_dot_counterexample :
    ((exampleServer.serviceMap.lookup "TestService").bind
        fun s => s.method.lookup "Add.x").isNone = true ∧
      (ServeHTTP noPointers exampleServer []
          (call "TestService.Add.x" (.array [num 40, num 2]))).reply
        = some ⟨some (num 0), some ⟨float64T, .float ⟨42, 0⟩⟩, none⟩ ∧
      ((ServeHTTP noPointers exampleServer []
          (call "TestService.Add.x" (.array [num 40, num 2]))).calls.map
        fun c => (c.service, c.method)) = [("TestService", "Add")] :=
  ⟨rfl, rfl, rfl⟩

/-- C9, amended: the method string is split at every dot; when its first segment is a
registered service and its second segment (the text between the first dot and the second
dot or the end) is no key of the method table of that service, the response is the error
`Method not found.`, no method is invoked and the server is unchanged. -/
theorem ServeHTTP_method_not_found (unmarshal : Unmarshal) (server : Server)
    (w : ResponseWriter) (body : Body) (req : jsonRequest) (sname mname : String)
    (more : List String) (svc : service)
    (hreq : Decode body = some req)
    (hsplit : strings.Split req.Method '.' = sname :: mname :: more)
    (hsvc : server.serviceMap.lookup sname = some svc)
    (habsent : svc.method.lookup mname = none) :
    ServeHTTP unmarshal server w body
        = .returned ⟨server, sendError w "Method not found.", []⟩ ∧
      (ServeHTTP unmarshal server w body).reply
        = some ⟨none, none, some "Method not found."⟩ := by
  have h : ServeHTTP unmarshal server w body
      = .returned ⟨server, sendError w "Method not found.", []⟩ := by
    simp [ServeHTTP, hreq, hsplit, hsvc, habsent]
  exact ⟨h, by rw [h]; exact reply_sendError _ _ _ (by decide)⟩

/-- Witness of C9 amended: the request for `TestService.NonExistent` of the test file. -/
theorem ServeHTTP_method_not_found_witness :
    ServeHTTP noPointers exampleServer []
        (call "TestService.NonExistent" (.array [num 40, num 2]))
        = .returned ⟨exampleServer, sendError [] "Method not found.", []⟩ ∧
      (ServeHTTP noPointers exampleServer []
          (call "TestService.NonExistent" (.array [num 40, num 2]))).reply
        = some ⟨none, none, some "Method not found."⟩ :=
  ServeHTTP_method_not_found noPointers exampleServer []
    (call "TestService.NonExistent" (.array [num 40, num 2]))
    ⟨some (num 0), "TestService.NonExistent", some (.array [num 40, num 2])⟩
    "TestService" "NonExistent" [] (serviceOf "TestService" TestService TestService.Add)
    rfl rfl rfl rfl

/-- C4: when a decoded request resolves to a registered service and method and its
params are a JSON array whose length differs from the number of declared parameters, the
response is the error `Incorrect number of parameters.` with no result; the method is not
invoked and the server is unchanged. -/
theorem ServeHTTP_wrong_arity (unmarshal : Unmarshal) (server : Server)
    (w : ResponseWriter) (body : Body) (req : jsonRequest) (sname mname : String)
    (more : List String) (svc : service) (mtype : methodType) (elems : List JSON)
    (hreq : Decode body = some req)
    (hsplit : strings.Split req.Method '.' = sname :: mname :: more)
    (hsvc : server.serviceMap.lookup sname = some svc)
    (hmethod : svc.method.lookup mname = some mtype)
    (hparams : req.Params = some (.array elems))
    (hlen : elems.length ≠ mtype.argTypes.length) :
    ServeHTTP unmarshal server w body
        = .returned ⟨server, sendError w "Incorrect number of parameters.", []⟩ ∧
      (ServeHTTP unmarshal server w body).reply
        = some ⟨none, none, some "Incorrect number of parameters."⟩ := by
  have hg : getParams unmarshal req mtype.argTypes
      = .error "Incorrect number of parameters." := by
    simp [getParams, hparams, unmarshalRawSlice, hlen]
  have h : ServeHTTP unmarshal server w body
      = .returned ⟨server, sendError w "Incorrect number of parameters.", []⟩ := by
    simp [ServeHTTP, hreq, hsplit, hsvc, hmethod, hg]
  exact ⟨h, by rw [h]; exact reply_sendError _ _ _ (by decide)⟩

/-- Witness of C4: `TestService.Add`, which declares two parameters, called with the
empty array. -/
theorem ServeHTTP_wrong_arity_witness :
    ServeHTTP noPointers exampleServer [] (call "TestService.Add" (.array []))
        = .returned ⟨exampleServer, sendError [] "Incorrect number of parameters.", []⟩ ∧
      (ServeHTTP noPointers exampleServer [] (call "TestService.Add" (.array []))).reply
        = some ⟨none, none, some "Incorrect number of parameters."⟩ :=
  ServeHTTP_wrong_arity noPointers exampleServer [] (call "TestService.Add" (.array []))
    ⟨some (num 0), "TestService.Add", some (.array [])⟩ "TestService" "Add" []
    (serviceOf "TestService" TestService TestService.Add)
    ⟨TestService.Add, [float64T, float64T], float64T, 0⟩ [] rfl rfl rfl rfl rfl (by decide)

/-! ## Invocation -/

/-- C2 as stated fails: `TestService.Add` with the params `[1e308, 1e308]` is invoked and
returns the sum, the positive infinity, with a nil status; `enc.Encode` cannot marshal it
and its error is dropped: the content type is set and no body is written, so no response
carries the method's first return value. -/
theorem ServeHTTP_infinite_result_counterexample :
    TestService.Add.Func [⟨.ptr TestService, .int 0⟩, ⟨float64T, .float ⟨5010420900022432, 971⟩⟩,
        ⟨float64T, .float ⟨5010420900022432, 971⟩⟩]
      = [⟨float64T, .infinity false⟩, nilError] ∧
    ServeHTTP noPointers exampleServer [] (call "TestService.Add" (.array [big, big]))
      = .returned ⟨⟨countCallAt "TestService" "Add" exampleServer.serviceMap⟩,
          [.setHeader "Content-Type" "application/json; charset=utf-8"],
          [⟨"TestService", "Add", [⟨.ptr TestService, .int 0⟩,
            ⟨float64T, .float ⟨5010420900022432, 971⟩⟩,
            ⟨float64T, .float ⟨5010420900022432, 971⟩⟩]⟩]⟩ ∧
    (ServeHTTP noPointers exampleServer []
      (call "TestService.Add" (.array [big, big]))).reply = none :=
  ⟨rfl, rfl, rfl⟩

/-- A method that returns a channel is registered, invoked, and answered with the
content type and no body. -/
theorem ServeHTTP_chan_result :
    Register isUpperASCII NewServer (some newBad) = .returned none badServer ∧
      ServeHTTP noPointers badServer [] (call "Bad.Ch" (.array []))
        = .returned ⟨⟨countCallAt "Bad" "Ch" badServer.serviceMap⟩,
            [.setHeader "Content-Type" "application/json; charset=utf-8"],
            [⟨"Bad", "Ch", [⟨.ptr Bad, .int 0⟩]⟩]⟩ :=
  ⟨rfl, rfl⟩

/-- C2, amended: when a decoded request resolves to a registered service and method
(whose inputs are, as `register` records them, the receiver's type followed by
`argTypes`) and its params are a JSON array whose elements coerce, position by position,
to values of the declared parameter types (which forces equal lengths), then `ServeHTTP`
invokes that method exactly once, with the receiver followed by the coerced arguments in
order; and when the status the method returns is the nil error, the envelope handed to
the encoder holds the request's id, the method's first return value as result, and no
error: it is the response written when that value can be marshalled; when it cannot, the
content type is set and no body is written. -/
theorem ServeHTTP_invokes (unmarshal : Unmarshal) (server : Server) (w : ResponseWriter)
    (body : Body) (req : jsonRequest) (sname mname : String) (more : List String)
    (svc : service) (mtype : methodType) (elems : List JSON) (args : List Value)
    (hreq : Decode body = some req)
    (hsplit : strings.Split req.Method '.' = sname :: mname :: more)
    (hsvc : server.serviceMap.lookup sname = some svc)
    (hmethod : svc.method.lookup mname = some mtype)
    (hin : mtype.method.In = svc.rcvr.typ :: mtype.argTypes)
    (hparams : req.Params = some (.array elems))
    (hcoerce : Coerces unmarshal mtype.argTypes (elems.map rawPointer) args) :
    (ServeHTTP unmarshal server w body).calls = [⟨sname, mname, svc.rcvr :: args⟩] ∧
      ∀ (result status : Value) (rest : List Value),
        mtype.method.Func (svc.rcvr :: args) = result :: status :: rest →
        status.data = .nil →
        ServeHTTP unmarshal server w body
            = .returned ⟨⟨countCallAt sname mname server.serviceMap⟩,
                encode w ⟨req.Id, some result, none⟩, [⟨sname, mname, svc.rcvr :: args⟩]⟩ ∧
          (result.marshals = true →
            (ServeHTTP unmarshal server w body).reply = some ⟨req.Id, some result, none⟩) ∧
          (result.marshals = false →
            (ServeHTTP unmarshal server w body).outcome.w
              = w ++ [.setHeader "Content-Type" "application/json; charset=utf-8"]) := by
  have hg := getParams_coerces hparams hcoerce
  have hc := Call_coerces hcoerce mtype.method svc.rcvr hin
  constructor
  · simp only [ServeHTTP, hreq, hsplit, hsvc, hmethod, hg, hc, List.get?]
    repeat' split
    all_goals rfl
  · intro result status rest hfunc hnil
    have h : ServeHTTP unmarshal server w body
        = .returned ⟨⟨countCallAt sname mname server.serviceMap⟩,
            encode w ⟨req.Id, some result, none⟩, [⟨sname, mname, svc.rcvr :: args⟩]⟩ := by
      simp [ServeHTTP, hreq, hsplit, hsvc, hmethod, hg, hc, hfunc, errorMessage, hnil]
    refine ⟨h, ?_, ?_⟩
    · intro hm
      rw [h]
      exact reply_encode _ _ _ _ hm
    · intro hm
      rw [h]
      exact encode_refused _ _ hm

/-- Witness of C2 amended: `TestService.Add` with the params `[40, 2]` of the test file
is invoked once with the receiver, 40 and 2, and the response carries the result 42. -/
theorem ServeHTTP_invokes_witness :
    (ServeHTTP noPointers exampleServer []
        (call "TestService.Add" (.array [num 40, num 2]))).calls
      = [⟨"TestService", "Add",
          [⟨.ptr TestService, .int 0⟩, ⟨float64T, .float ⟨40, 0⟩⟩, ⟨float64T, .float ⟨2, 0⟩⟩]⟩] ∧
    (ServeHTTP noPointers exampleServer []
        (call "TestService.Add" (.array [num 40, num 2]))).reply
      = some ⟨some (num 0), some ⟨float64T, .float ⟨42, 0⟩⟩, none⟩ :=
  have h := ServeHTTP_invokes noPointers exampleServer []
    (call "TestService.Add" (.array [num 40, num 2]))
    ⟨some (num 0), "TestService.Add", some (.array [num 40, num 2])⟩ "TestService" "Add" []
    (serviceOf "TestService" TestService TestService.Add)
    ⟨TestService.Add, [float64T, float64T], float64T, 0⟩ [num 40, num 2]
    [⟨float64T, .float ⟨40, 0⟩⟩, ⟨float64T, .float ⟨2, 0⟩⟩] rfl rfl rfl rfl rfl rfl
    (.cons rfl rfl (.cons rfl rfl .nil))
  ⟨h.1, (h.2 ⟨float64T, .float ⟨42, 0⟩⟩ nilError [] rfl rfl).2.1 rfl⟩

/-- C3 as stated fails: the method `Quiet.Fail` returns a non-nil error, one whose
message is empty, and the response carries the result and no error. -/
theorem ServeHTTP_empty_message_counterexample :
    (∃ result : Value,
        Quiet.Fail.Func [⟨.ptr Quiet, .int 0⟩] = [result, ⟨typeOfOsError, .error ""⟩]) ∧
      (ServeHTTP noPointers exampleServer [] (call "Quiet.Fail" (.array []))).reply
        = some ⟨some (num 0), some ⟨stringT, .string "partial"⟩, none⟩ :=
  ⟨⟨_, rfl⟩, rfl⟩

/-- C3, amended: for a request that reaches the invocation, the method returning a result
and a status: when the status is an error whose message is not empty, the response's
error is exactly that message and the result is unset; when the status is the nil error,
or an error whose message is empty, the envelope handed to the encoder holds the method's
first return value as result and no error: it is the response written when that value
can be marshalled, and when it cannot, the content type is set and no body is written.
In both cases the id is the request's. -/
theorem ServeHTTP_status (unmarshal : Unmarshal) (server : Server) (w : ResponseWriter)
    (body : Body) (req : jsonRequest) (sname mname : String) (more : List String)
    (svc : service) (mtype : methodType) (args : List Value) (result status : Value)
    (rest : List Value)
    (hreq : Decode body = some req)
    (hsplit : strings.Split req.Method '.' = sname :: mname :: more)
    (hsvc : server.serviceMap.lookup sname = some svc)
    (hmethod : svc.method.lookup mname = some mtype)
    (hargs : getParams unmarshal req mtype.argTypes = .args args)
    (hcall : mtype.method.Call (svc.rcvr :: args) = .ok (result :: status :: rest)) :
    (∀ msg : String, status.data = .error msg → msg ≠ "" →
        (ServeHTTP unmarshal server w body).reply = some ⟨req.Id, none, some msg⟩) ∧
      (status.data = .nil ∨ status.data = .error "" →
        ServeHTTP unmarshal server w body
            = .returned ⟨⟨countCallAt sname mname server.serviceMap⟩,
                encode w ⟨req.Id, some result, none⟩, [⟨sname, mname, svc.rcvr :: args⟩]⟩ ∧
          (result.marshals = true →
            (ServeHTTP unmarshal server w body).reply = some ⟨req.Id, some result, none⟩) ∧
          (result.marshals = false →
            (ServeHTTP unmarshal server w body).outcome.w
              = w ++ [.setHeader "Content-Type" "application/json; charset=utf-8"])) := by
  constructor
  · intro msg hmsg hne
    have h : ServeHTTP unmarshal server w body
        = .returned ⟨⟨countCallAt sname mname server.serviceMap⟩,
            encode w ⟨req.Id, none, some msg⟩, [⟨sname, mname, svc.rcvr :: args⟩]⟩ := by
      simp [ServeHTTP, hreq, hsplit, hsvc, hmethod, hargs, hcall, errorMessage, hmsg, hne]
    rw [h]; exact reply_encode _ _ _ _ rfl
  · intro hst
    have h : ServeHTTP unmarshal server w body
        = .returned ⟨⟨countCallAt sname mname server.serviceMap⟩,
            encode w ⟨req.Id, some result, none⟩, [⟨sname, mname, svc.rcvr :: args⟩]⟩ := by
      rcases hst with hst | hst <;>
        simp [ServeHTTP, hreq, hsplit, hsvc, hmethod, hargs, hcall, errorMessage, hst]
    refine ⟨h, ?_, ?_⟩
    · intro hm
      rw [h]
      exact reply_encode _ _ _ _ hm
    · intro hm
      rw [h]
      exact encode_refused _ _ hm

/-- Witness of C3 amended: `Terminal.Login` with a wrong password answers with the error
`Wrong password` and no result. -/
theorem ServeHTTP_status_witness :
    (ServeHTTP noPointers exampleServer []
        (call "Terminal.Login" (.array [.string "demo", .string "guess"]))).reply
      = some ⟨some (num 0), none, some "Wrong password"⟩ :=
  (ServeHTTP_status noPointers exampleServer []
    (call "Terminal.Login" (.array [.string "demo", .string "guess"]))
    ⟨some (num 0), "Terminal.Login", some (.array [.string "demo", .string "guess"])⟩
    "Terminal" "Login" [] (serviceOf "Terminal" Terminal Terminal.Login)
    ⟨Terminal.Login, [stringT, stringT], stringT, 0⟩
    [⟨stringT, .string "demo"⟩, ⟨stringT, .string "guess"⟩]
    ⟨stringT, .string ""⟩ ⟨typeOfOsError, .error "Wrong password"⟩ []
    rfl rfl rfl rfl rfl rfl).1 "Wrong password" rfl (by decide)

/-! ## The id of the response -/

/-- C1 as stated fails: the request for `OtherService.Add` decodes with the id 0, and the
response to it, the error `Service not found.`, carries the id null. -/
theorem ServeHTTP_error_id_counterexample :
    ∃ (req : jsonRequest) (resp : jsonResponse),
      Decode (call "OtherService.Add" (.array [num 40, num 2])) = some req ∧
      (ServeHTTP noPointers exampleServer []
        (call "OtherService.Add" (.array [num 40, num 2]))).reply = some resp ∧
      req.Id = some (num 0) ∧ resp.Id = none ∧ resp.Id ≠ req.Id :=
  ⟨⟨some (num 0), "OtherService.Add", some (.array [num 40, num 2])⟩,
    ⟨none, none, some "Service not found."⟩, rfl, rfl, rfl, rfl, by simp⟩

/-- C1, amended: whenever `ServeHTTP` returns, either no method was invoked (the body
failed to decode, or the request ended in a protocol error: service or method not found,
params that are no array, wrong arity, type mismatch) and the response written carries
an error, no result and the id null, whatever the id of the request; or a method was
invoked (success or application error), the body had decoded, and the envelope handed to
the encoder carries the request's id: it is the response written when it can be
marshalled, and when it cannot, the content type is set and no body is written. -/
theorem ServeHTTP_reply_id (unmarshal : Unmarshal) (server : Server) (w : ResponseWriter)
    (body : Body) (o : Outcome) (h : ServeHTTP unmarshal server w body = .returned o) :
    (o.calls = [] ∧ ∃ resp : jsonResponse, (Served.returned o).reply = some resp ∧
        resp.Id = none ∧ resp.Result = none ∧ resp.Error ≠ none) ∨
      (∃ (req : jsonRequest) (resp : jsonResponse),
        Decode body = some req ∧ o.calls ≠ [] ∧ resp.Id = req.Id ∧ o.w = encode w resp ∧
        (resp.marshals = true → (Served.returned o).reply = some resp) ∧
        (resp.marshals = false →
          o.w = w ++ [.setHeader "Content-Type" "application/json; charset=utf-8"])) := by
  have herr : ∀ s : String, s.data.all plainRune = true →
      ((⟨server, sendError w s, []⟩ : Outcome).calls = [] ∧
        ∃ resp : jsonResponse,
          (Served.returned ⟨server, sendError w s, []⟩).reply = some resp ∧
          resp.Id = none ∧ resp.Result = none ∧ resp.Error ≠ none) ∨
      (∃ (req : jsonRequest) (resp : jsonResponse),
        Decode body = some req ∧ (⟨server, sendError w s, []⟩ : Outcome).calls ≠ [] ∧
        resp.Id = req.Id ∧ (⟨server, sendError w s, []⟩ : Outcome).w = encode w resp ∧
        (resp.marshals = true →
          (Served.returned ⟨server, sendError w s, []⟩).reply = some resp) ∧
        (resp.marshals = false →
          (⟨server, sendError w s, []⟩ : Outcome).w
            = w ++ [.setHeader "Content-Type" "application/json; charset=utf-8"])) := by
    intro s hs
    exact Or.inl ⟨rfl, _, reply_sendError server w s hs, rfl, rfl, by simp⟩
  have hinv : ∀ (req : jsonRequest) (counted : Server) (resp : jsonResponse)
      (inv : Invocation), Decode body = some req → resp.Id = req.Id →
      ((⟨counted, encode w resp, [inv]⟩ : Outcome).calls = [] ∧
        ∃ r : jsonResponse,
          (Served.returned ⟨counted, encode w resp, [inv]⟩).reply = some r ∧
          r.Id = none ∧ r.Result = none ∧ r.Error ≠ none) ∨
      (∃ (q : jsonRequest) (r : jsonResponse),
        Decode body = some q ∧ (⟨counted, encode w resp, [inv]⟩ : Outcome).calls ≠ [] ∧
        r.Id = q.Id ∧ (⟨counted, encode w resp, [inv]⟩ : Outcome).w = encode w r ∧
        (r.marshals = true →
          (Served.returned ⟨counted, encode w resp, [inv]⟩).reply = some r) ∧
        (r.marshals = false →
          (⟨counted, encode w resp, [inv]⟩ : Outcome).w
            = w ++ [.setHeader "Content-Type" "application/json; charset=utf-8"])) := by
    intro req counted resp inv hreq hid
    exact Or.inr ⟨req, resp, hreq, by simp, hid, rfl,
      fun hm => reply_encode _ _ _ _ hm, fun hm => encode_refused _ _ hm⟩
  unfold ServeHTTP at h
  split at h
  · cases h; exact herr _ (by decide)
  · rename_i req hreq
    dsimp only at h
    split at h
    · cases h
    · split at h
      · cases h; exact herr _ (by decide)
      · split at h
        · cases h
        · split at h
          · cases h; exact herr _ (by decide)
          · split at h
            · cases h
            · rename_i msg hmsg
              cases h
              exact herr _ (getParams_error_plain _ _ _ _ hmsg)
            · split at h
              · cases h
              · split at h
                · cases h
                · split at h
                  · cases h
                  · split at h
                    · cases h
                      exact hinv req _ _ _ hreq rfl
                    · split at h
                      · cases h
                      · cases h
                        exact hinv req _ _ _ hreq rfl

/-- Witness of C1 amended: the request for `TestService.Add` with `[40, 2]` returns, a
method was invoked, and the response written carries the id 0 of the request. -/
theorem ServeHTTP_reply_id_witness :
    ServeHTTP noPointers exampleServer [] (call "TestService.Add" (.array [num 40, num 2]))
        = .returned addOutcome ∧
      ((addOutcome.calls = [] ∧ ∃ resp : jsonResponse,
          (Served.returned addOutcome).reply = some resp ∧
          resp.Id = none ∧ resp.Result = none ∧ resp.Error ≠ none) ∨
        (∃ (req : jsonRequest) (resp : jsonResponse),
          Decode (call "TestService.Add" (.array [num 40, num 2])) = some req ∧
          addOutcome.calls ≠ [] ∧ resp.Id = req.Id ∧ addOutcome.w = encode [] resp ∧
          (resp.marshals = true → (Served.returned addOutcome).reply = some resp) ∧
          (resp.marshals = false →
            addOutcome.w
              = [] ++ [.setHeader "Content-Type" "application/json; charset=utf-8"]))) :=
  ⟨rfl, ServeHTTP_reply_id noPointers exampleServer []
    (call "TestService.Add" (.array [num 40, num 2])) addOutcome rfl⟩

/-! ## Defects of the coercion -/

/-- C5, the code at the failing input: `TestService.Add` declares two `float64`
parameters and is called with `[null, 2]`. The element pointer of `null` is nil, and
`getParams` panics on dereferencing it instead of failing with
`Type mismatch parameter 1.`; `ServeHTTP` writes no response. -/
theorem getParams_null_panics :
    getParams noPointers ⟨some (num 0), "TestService.Add", some (.array [.null, num 2])⟩
        [float64T, float64T] = .panic .nilDereference ∧
      ServeHTTP noPointers exampleServer [] (call "TestService.Add" (.array [.null, num 2]))
        = .panicked .nilDereference ⟨exampleServer, [], []⟩ :=
  ⟨rfl, rfl⟩

/-- C6, the code at the failing input: `Calc.Echo` declares one `int64` parameter and is
called with `[2.9]`. `getParams` accepts the number and truncates it to 2, but the
argument it builds has the type `int`, not the declared `int64`: the call of the method
panics (`reflect: Call using int as type int64`), the method is not invoked and no
response is written. -/
theorem getParams_int64_builds_int :
    getParams noPointers
        ⟨some (num 0), "Calc.Echo", some (.array [.number ⟨6530219459687219, -51⟩])⟩ [int64T]
        = .args [⟨.basic Kind.Int, .int 2⟩] ∧
      ServeHTTP noPointers exampleServer []
          (call "Calc.Echo" (.array [.number ⟨6530219459687219, -51⟩]))
        = .panicked (.callUsing 1 (.basic Kind.Int) int64T)
            ⟨⟨countCallAt "Calc" "Echo" exampleServer.serviceMap⟩, [], []⟩ :=
  ⟨rfl, rfl⟩

/-! ## The shape of every run of `ServeHTTP` -/

/-- Every run of `ServeHTTP` ends in one of four ways: an error response sent on the
unchanged server; a panic before the call was counted; a panic after it was counted,
nothing written; or the encoded response of an invocation. -/
theorem ServeHTTP_shape (unmarshal : Unmarshal) (server : Server) (w : ResponseWriter)
    (body : Body) :
    (∃ msg : String,
        ServeHTTP unmarshal server w body = .returned ⟨server, sendError w msg, []⟩) ∨
      (∃ p : Panic, ServeHTTP unmarshal server w body = .panicked p ⟨server, w, []⟩) ∨
      (∃ (sname mname : String) (p : Panic) (calls : List Invocation),
        ServeHTTP unmarshal server w body
          = .panicked p ⟨⟨countCallAt sname mname server.serviceMap⟩, w, calls⟩) ∨
      (∃ (sname mname : String) (resp : jsonResponse) (inv : Invocation),
        ServeHTTP unmarshal server w body
          = .returned ⟨⟨countCallAt sname mname server.serviceMap⟩, encode w resp, [inv]⟩) := by
  unfold ServeHTTP
  simp only []
  repeat' split
  all_goals first
    | exact Or.inl ⟨_, rfl⟩
    | exact Or.inr (Or.inl ⟨_, rfl⟩)
    | exact Or.inr (Or.inr (Or.inl ⟨_, _, _, _, rfl⟩))
    | exact Or.inr (Or.inr (Or.inr ⟨_, _, _, _, rfl⟩))

/-! ## Totality of the dispatch -/

/-- C11, the code at the failing input: a request for `TestService.Add` without a
`params` member, or with `params` the literal `null`, decodes as an envelope whose
`Params` pointer is nil; `getParams` dereferences it and panics: no response envelope is
written. -/
theorem ServeHTTP_absent_params_panics :
    (Decode callWithoutParams).map (fun req => req.Params.isNone) = some true ∧
      ServeHTTP noPointers exampleServer [] callWithoutParams
        = .panicked .nilDereference ⟨exampleServer, [], []⟩ ∧
      ServeHTTP noPointers exampleServer [] (call "TestService.Add" .null)
        = .panicked .nilDereference ⟨exampleServer, [], []⟩ :=
  ⟨rfl, rfl, rfl⟩

/-! ## The content type -/

theorem headerOf_append (key value : String) (c : Chunk) (w : ResponseWriter) :
    headerOf key (w ++ [.setHeader key value, .write c]) = some value := by
  induction w with
  | nil => simp [headerOf]
  | cons e w ih => cases e <;> simp [headerOf, ih]

theorem headerOf_append_set (key value : String) (w : ResponseWriter) :
    headerOf key (w ++ [.setHeader key value]) = some value := by
  induction w with
  | nil => simp [headerOf]
  | cons e w ih => cases e <;> simp [headerOf, ih]

/-- C19: whenever `ServeHTTP` returns, what it did to the response writer is exactly
this: it set the header `Content-Type` to `application/json; charset=utf-8` and then
wrote the body, once; or, after an invocation whose result cannot be marshalled, it set
that header and wrote no body. So on every path (invalid JSON, service or method not
found, wrong arity, type mismatch, application error and success) the header holds that
value, set before the body is written. -/
theorem ServeHTTP_content_type (unmarshal : Unmarshal) (server : Server) (w : ResponseWriter)
    (body : Body) (o : Outcome) (h : ServeHTTP unmarshal server w body = .returned o) :
    ((∃ c : Chunk,
        o.w = w ++ [.setHeader "Content-Type" "application/json; charset=utf-8", .write c]) ∨
      (o.calls ≠ [] ∧
        o.w = w ++ [.setHeader "Content-Type" "application/json; charset=utf-8"])) ∧
    headerOf "Content-Type" o.w = some "application/json; charset=utf-8" := by
  have hw : (∃ c : Chunk,
        o.w = w ++ [.setHeader "Content-Type" "application/json; charset=utf-8", .write c]) ∨
      (o.calls ≠ [] ∧
        o.w = w ++ [.setHeader "Content-Type" "application/json; charset=utf-8"]) := by
    rcases ServeHTTP_shape unmarshal server w body with
      ⟨msg, hs⟩ | ⟨p, hs⟩ | ⟨sname, mname, p, calls, hs⟩ | ⟨sname, mname, resp, inv, hs⟩
    · rw [hs] at h; cases h; exact Or.inl ⟨_, rfl⟩
    · rw [hs] at h; cases h
    · rw [hs] at h; cases h
    · rw [hs] at h; cases h
      cases hm : resp.marshals with
      | true => exact Or.inl ⟨.encoded resp, by simp [encode, hm]⟩
      | false => exact Or.inr ⟨by simp, by simp [encode, hm]⟩
  refine ⟨hw, ?_⟩
  rcases hw with ⟨c, hc⟩ | ⟨_, hc⟩
  · rw [hc]; exact headerOf_append _ _ _ _
  · rw [hc]; exact headerOf_append_set _ _ _

/-- Witness of C19: the request for `OtherService.Add` of the test file, a protocol
error, and the request for `TestService.Add` with `[40, 2]`, a success. -/
theorem ServeHTTP_content_type_witness :
    (ServeHTTP noPointers exampleServer [] (call "OtherService.Add" (.array [num 40, num 2]))
        = .returned ⟨exampleServer, sendError [] "Service not found.", []⟩ ∧
      headerOf "Content-Type" (sendError [] "Service not found.")
        = some "application/json; charset=utf-8") ∧
    (ServeHTTP noPointers exampleServer [] (call "TestService.Add" (.array [num 40, num 2]))
        = .returned addOutcome ∧
      headerOf "Content-Type" addOutcome.w = some "application/json; charset=utf-8") :=
  ⟨⟨rfl, (ServeHTTP_content_type noPointers exampleServer []
      (call "OtherService.Add" (.array [num 40, num 2]))
      ⟨exampleServer, sendError [] "Service not found.", []⟩ rfl).2⟩,
    ⟨rfl, (ServeHTTP_content_type noPointers exampleServer []
      (call "TestService.Add" (.array [num 40, num 2])) addOutcome rfl).2⟩⟩

/-! ## Facts about the call counters -/

theorem lookup_mem {β : Type} (k : String) (v : β) :
    ∀ l : List (String × β), l.lookup k = some v → (k, v) ∈ l := by
  intro l
  induction l with
  | nil => intro h; simp at h
  | cons e l ih =>
    intro h
    obtain ⟨k', v'⟩ := e
    rw [List.lookup_cons] at h
    by_cases hk : k = k'
    · subst hk
      simp at h
      simp [h]
    · have : (k == k') = false := by simpa using hk
      rw [this] at h
      exact List.mem_cons_of_mem _ (ih h)

theorem lookup_countCallIn (mname key : String) :
    ∀ table : List (String × methodType),
    (countCallIn mname table).lookup key
      = (table.lookup key).map fun m => if key = mname then m.countCall else m := by
  intro table
  induction table with
  | nil => simp [countCallIn]
  | cons e table ih =>
    obtain ⟨k, m⟩ := e
    unfold countCallIn
    by_cases hk : k = mname
    · subst hk
      by_cases hkey : key = k
      · subst hkey; simp [List.lookup_cons]
      · have hb : (key == k) = false := by simpa using hkey
        simp [List.lookup_cons, hb, hkey]
    · by_cases hkey : key = k
      · subst hkey; simp [List.lookup_cons, hk]
      · have hb : (key == k) = false := by simpa using hkey
        simp [List.lookup_cons, hb, hk, ih]

theorem lookup_countCallAt (sname mname key : String) :
    ∀ map : List (String × service),
    (countCallAt sname mname map).lookup key
      = (map.lookup key).map fun s =>
          if key = sname then ⟨s.name, s.rcvr, s.typ, countCallIn mname s.method⟩ else s := by
  intro map
  induction map with
  | nil => simp [countCallAt]
  | cons e map ih =>
    obtain ⟨k, s⟩ := e
    unfold countCallAt
    by_cases hk : k = sname
    · subst hk
      by_cases hkey : key = k
      · subst hkey; simp [List.lookup_cons]
      · have hb : (key == k) = false := by simpa using hkey
        simp [List.lookup_cons, hb, hkey]
    · by_cases hkey : key = k
      · subst hkey; simp [List.lookup_cons, hk]
      · have hb : (key == k) = false := by simpa using hkey
        simp [List.lookup_cons, hb, hk, ih]

/-- The counters after one counted call: the counter that the keys of the call read is
one more modulo the size of `uint`; every other counter is as before. -/
theorem numCallsOf_countCallAt (server : Server) (sname mname s m : String) :
    numCallsOf ⟨countCallAt sname mname server.serviceMap⟩ s m
      = if s = sname ∧ m = mname then
          (numCallsOf server s m).map fun n => (n + 1) % uintSize
        else numCallsOf server s m := by
  unfold numCallsOf
  rw [lookup_countCallAt]
  cases hs : server.serviceMap.lookup s with
  | none => simp
  | some svc =>
    by_cases h1 : s = sname
    · subst h1
      by_cases h2 : m = mname
      · subst h2
        simp only [Option.map_some', Option.some_bind, if_true, and_self]
        rw [lookup_countCallIn]
        cases svc.method.lookup m <;> simp [methodType.countCall]
      · simp only [Option.map_some', Option.some_bind, if_true, h2, and_false, if_false]
        rw [lookup_countCallIn]
        cases svc.method.lookup m <;> simp [h2]
    · simp [h1]

theorem mem_countCallIn (mname : String) (f : String × methodType) :
    ∀ table : List (String × methodType), f ∈ countCallIn mname table →
    ∃ g ∈ table, f.1 = g.1 ∧ (f.2 = g.2 ∨ f.2 = g.2.countCall) := by
  intro table
  induction table with
  | nil => intro h; simp [countCallIn] at h
  | cons e table ih =>
    obtain ⟨k, m⟩ := e
    intro h
    unfold countCallIn at h
    split at h
    · rcases List.mem_cons.mp h with h | h
      · exact ⟨(k, m), List.mem_cons_self _ _, by simp [h], Or.inr (by simp [h])⟩
      · exact ⟨f, List.mem_cons_of_mem _ h, rfl, Or.inl rfl⟩
    · rcases List.mem_cons.mp h with h | h
      · exact ⟨(k, m), List.mem_cons_self _ _, by simp [h], Or.inl (by simp [h])⟩
      · obtain ⟨g, hg, h1, h2⟩ := ih h
        exact ⟨g, List.mem_cons_of_mem _ hg, h1, h2⟩

theorem mem_countCallAt (sname mname : String) (e : String × service) :
    ∀ map : List (String × service), e ∈ countCallAt sname mname map →
    ∃ d ∈ map, e.1 = d.1 ∧
      (e.2 = d.2 ∨ e.2 = ⟨d.2.name, d.2.rcvr, d.2.typ, countCallIn mname d.2.method⟩) := by
  intro map
  induction map with
  | nil => intro h; simp [countCallAt] at h
  | cons c map ih =>
    obtain ⟨k, s⟩ := c
    intro h
    unfold countCallAt at h
    split at h
    · rcases List.mem_cons.mp h with h | h
      · exact ⟨(k, s), List.mem_cons_self _ _, by simp [h], Or.inr (by simp [h])⟩
      · exact ⟨e, List.mem_cons_of_mem _ h, rfl, Or.inl rfl⟩
    · rcases List.mem_cons.mp h with h | h
      · exact ⟨(k, s), List.mem_cons_self _ _, by simp [h], Or.inl (by simp [h])⟩
      · obtain ⟨d, hd, h1, h2⟩ := ih h
        exact ⟨d, List.mem_cons_of_mem _ hd, h1, h2⟩

/-! ## Facts about the validation of methods -/

theorem exportedOrBuiltin_iff (IsUpper : Char → Bool) (t : RType) :
    exportedOrBuiltin IsUpper t = true
      ↔ ¬ (t.PkgPath ≠ "" ∧ isExported IsUpper t.Name = false) := by
  unfold exportedOrBuiltin
  by_cases hp : t.PkgPath = "" <;> simp [hp]

theorem argsOf_eq (IsUpper : Char → Bool) : ∀ ts : List RType,
    argsOf IsUpper ts
      = if ts.all (fun t =>
            decide (t.kind = Kind.Ptr → exportedOrBuiltin IsUpper t.Elem = true)) = true
        then some ts else none := by
  intro ts
  induction ts with
  | nil => simp [argsOf]
  | cons t ts ih =>
    unfold argsOf
    by_cases hbad : t.kind = Kind.Ptr ∧ t.Elem.PkgPath ≠ "" ∧
        isExported IsUpper t.Elem.Name = false
    · have he : ¬ exportedOrBuiltin IsUpper t.Elem = true :=
        fun he => (exportedOrBuiltin_iff IsUpper t.Elem).mp he hbad.2
      have hhead : decide (t.kind = Kind.Ptr → exportedOrBuiltin IsUpper t.Elem = true)
          = false := decide_eq_false (fun h => he (h hbad.1))
      rw [if_pos hbad, List.all_cons, hhead, Bool.false_and]
      simp
    · have hhead : decide (t.kind = Kind.Ptr → exportedOrBuiltin IsUpper t.Elem = true)
          = true :=
        decide_eq_true (fun hk =>
          (exportedOrBuiltin_iff IsUpper t.Elem).mpr (fun hc => hbad ⟨hk, hc⟩))
      rw [if_neg hbad, ih, List.all_cons, hhead, Bool.true_and]
      by_cases hall : ts.all (fun t =>
          decide (t.kind = Kind.Ptr → exportedOrBuiltin IsUpper t.Elem = true)) = true
      · rw [if_pos hall, if_pos hall]; rfl
      · rw [if_neg hall, if_neg hall]; rfl

/-- The record `register` installs for a method: the method passes the validation as the
specification words it, and the record holds the method, its parameter types in order
without the receiver, its first return type and a zero counter. -/
theorem methodRecord_some (IsUpper : Char → Bool) (m : Method) (mt : methodType)
    (h : methodRecord IsUpper m = some mt) :
    passesValidation IsUpper m = true ∧ mt = ⟨m, m.In.drop 1, mt.returnType, 0⟩ ∧
      m.Out = [mt.returnType, typeOfOsError] := by
  unfold methodRecord at h
  by_cases hname : m.typ.PkgPath ≠ "" ∨ isExported IsUpper m.Name = false
  · rw [if_pos hname] at h; cases h
  · rw [if_neg hname, argsOf_eq] at h
    by_cases hall : (m.In.drop 1).all (fun t =>
        decide (t.kind = Kind.Ptr → exportedOrBuiltin IsUpper t.Elem = true)) = true
    · rw [if_pos hall] at h
      simp only at h
      split at h
      · rename_i returnType errorType hout
        by_cases hret : returnType.kind = Kind.Ptr ∧ returnType.Elem.PkgPath ≠ "" ∧
            isExported IsUpper returnType.Elem.Name = false
        · rw [if_pos hret] at h; cases h
        · rw [if_neg hret] at h
          by_cases herr : errorType ≠ typeOfOsError
          · rw [if_pos herr] at h; cases h
          · rw [if_neg herr] at h
            cases h
            have hexp : isExported IsUpper m.Name = true := by
              cases hx : isExported IsUpper m.Name with
              | true => rfl
              | false => exact absurd (Or.inr hx) hname
            have hretok : returnType.kind = Kind.Ptr →
                exportedOrBuiltin IsUpper returnType.Elem = true := by
              intro hk
              exact (exportedOrBuiltin_iff IsUpper returnType.Elem).mpr
                (fun hc => hret ⟨hk, hc⟩)
            have herr2 : errorType = typeOfOsError := not_not.mp herr
            subst herr2
            refine ⟨?_, rfl, hout⟩
            unfold passesValidation
            rw [hexp, hall, hout]
            simp only [List.length_cons, List.length_nil, List.get?, Option.all_some,
              decide_eq_true hretok, decide_True, Bool.and_self]
      · cases h
    · rw [if_neg hall] at h; cases h

/-- A method that passes the validation as the specification words it gets a record. -/
theorem methodRecord_passes (IsUpper : Char → Bool) (m : Method)
    (h : passesValidation IsUpper m = true) :
    ∃ mt : methodType, methodRecord IsUpper m = some mt := by
  unfold passesValidation at h
  simp only [Bool.and_eq_true, decide_eq_true_eq] at h
  obtain ⟨⟨⟨⟨hname, hall⟩, hlen⟩, hret⟩, herr⟩ := h
  match hout : m.Out, hlen with
  | [returnType, errorType], _ =>
    rw [hout] at hret herr
    simp only [List.get?, Option.some.injEq] at herr
    subst herr
    simp only [List.get?, Option.all_some, decide_eq_true_eq] at hret
    have hr : ¬ (returnType.kind = Kind.Ptr ∧ returnType.Elem.PkgPath ≠ "" ∧
        isExported IsUpper returnType.Elem.Name = false) :=
      fun hc => (exportedOrBuiltin_iff IsUpper returnType.Elem).mp (hret hc.1) hc.2
    refine ⟨⟨m, m.In.drop 1, returnType, 0⟩, ?_⟩
    unfold methodRecord
    have h1 : ¬ (m.typ.PkgPath ≠ "" ∨ isExported IsUpper m.Name = false) := by
      simp [Method.typ, RType.PkgPath, hname]
    rw [if_neg h1, argsOf_eq, if_pos hall]
    simp only [hout]
    rw [if_neg hr]
    simp

theorem MethodLoop_mem (IsUpper : Char → Bool) :
    ∀ (ms : List Method) (table : List (String × methodType)) (e : String × methodType),
    e ∈ MethodLoop IsUpper ms table →
    e ∈ table ∨ ∃ m ∈ ms, methodRecord IsUpper m = some e.2 ∧ e.1 = m.Name := by
  intro ms
  induction ms with
  | nil => intro table e h; exact Or.inl h
  | cons m ms ih =>
    intro table e h
    unfold MethodLoop at h
    split at h
    · rcases ih _ _ h with h | ⟨m', hm', h'⟩
      · exact Or.inl h
      · exact Or.inr ⟨m', List.mem_cons_of_mem _ hm', h'⟩
    · rename_i mt hmt
      rcases ih _ _ h with h | ⟨m', hm', h'⟩
      · rcases List.mem_cons.mp h with h | h
        · exact Or.inr ⟨m, List.mem_cons_self _ _, by rw [h]; exact hmt, by rw [h]⟩
        · exact Or.inl h
      · exact Or.inr ⟨m', List.mem_cons_of_mem _ hm', h'⟩

theorem MethodLoop_keeps (IsUpper : Char → Bool) (k : String) :
    ∀ (ms : List Method) (table : List (String × methodType)),
    (table.lookup k).isSome = true → ((MethodLoop IsUpper ms table).lookup k).isSome = true := by
  intro ms
  induction ms with
  | nil => intro table h; exact h
  | cons m ms ih =>
    intro table h
    unfold MethodLoop
    split
    · exact ih _ h
    · apply ih
      rw [List.lookup_cons]
      split
      · rfl
      · exact h

theorem MethodLoop_key (IsUpper : Char → Bool) :
    ∀ (ms : List Method) (table : List (String × methodType)) (m : Method) (mt : methodType),
    m ∈ ms → methodRecord IsUpper m = some mt →
    ((MethodLoop IsUpper ms table).lookup m.Name).isSome = true := by
  intro ms
  induction ms with
  | nil => intro table m mt hm; cases hm
  | cons m' ms ih =>
    intro table m mt hm hrec
    rcases List.mem_cons.mp hm with hm | hm
    · subst hm
      unfold MethodLoop
      rw [hrec]
      apply MethodLoop_keeps
      simp [List.lookup_cons]
    · unfold MethodLoop
      split
      · exact ih _ _ _ hm hrec
      · exact ih _ _ _ hm hrec

theorem MethodLoop_ne_nil (IsUpper : Char → Bool) :
    ∀ (ms : List Method) (table : List (String × methodType)),
    table ≠ [] → MethodLoop IsUpper ms table ≠ [] := by
  intro ms
  induction ms with
  | nil => intro table h; exact h
  | cons m ms ih =>
    intro table h
    unfold MethodLoop
    split
    · exact ih _ h
    · exact ih _ (by simp)

theorem MethodLoop_nil_iff (IsUpper : Char → Bool) :
    ∀ ms : List Method,
    MethodLoop IsUpper ms [] = [] ↔ ∀ m ∈ ms, methodRecord IsUpper m = none := by
  intro ms
  induction ms with
  | nil => simp [MethodLoop]
  | cons m ms ih =>
    unfold MethodLoop
    cases hrec : methodRecord IsUpper m with
    | none => simp [ih, hrec]
    | some mt =>
      simp only
      constructor
      · intro h
        exact absurd h (MethodLoop_ne_nil IsUpper ms _ (by simp))
      · intro h
        have := h m (List.mem_cons_self _ _)
        rw [hrec] at this
        cases this

/-! ## Facts about `register` -/

/-- The checks of `register` in their order, for an object whose service name
resolves. -/
theorem register_resolved (IsUpper : Char → Bool) (server : Server) (obj : Object)
    (name : String) (useName : Bool) (sname : String)
    (hname : resolvedName obj name useName = .ok sname) :
    register IsUpper server (some obj) name useName =
      if sname = "" then .exited obj.value.typ
      else if obj.value.typ.PkgPath ≠ "" ∧ isExported IsUpper sname = false ∧ useName = false
        then .returned (some ("rpc Register: type " ++ sname ++ " is not exported")) server
      else if (server.serviceMap.lookup sname).isSome then
        .returned (some ("rpc: service already defined: " ++ sname)) server
      else if (MethodLoop IsUpper obj.methods []).length = 0 then
        .returned (some ("rpc Register: type " ++ sname ++
          " has no exported methods of suitable type")) server
      else
        .returned none ⟨(sname, ⟨sname, obj.value, obj.value.typ,
          MethodLoop IsUpper obj.methods []⟩) :: server.serviceMap⟩ := by
  unfold resolvedName at hname
  unfold register
  cases hind : indirectTypeName obj.value with
  | error p => rw [hind] at hname; cases hname
  | ok typeName =>
    rw [hind] at hname
    simp only [Except.ok.injEq] at hname
    subst hname
    simp only [hind]

/-- Every `register` call that returns either leaves the server as it was, with an
error, or has put one new service in front of the map, under a name that is not empty
and was no key, with the method table that `MethodLoop` built, and returns nil. -/
theorem register_returned (IsUpper : Char → Bool) (server : Server) (rcvr : Option Object)
    (name : String) (useName : Bool) (err : Option String) (after : Server)
    (h : register IsUpper server rcvr name useName = .returned err after) :
    (after = server ∧ err ≠ none) ∨
      ∃ (obj : Object) (sname : String), rcvr = some obj ∧
        resolvedName obj name useName = .ok sname ∧ sname ≠ "" ∧
        server.serviceMap.lookup sname = none ∧
        MethodLoop IsUpper obj.methods [] ≠ [] ∧ err = none ∧
        after = ⟨(sname, ⟨sname, obj.value, obj.value.typ,
          MethodLoop IsUpper obj.methods []⟩) :: server.serviceMap⟩ := by
  cases rcvr with
  | none => simp [register] at h
  | some obj =>
    cases hres : resolvedName obj name useName with
    | error p =>
      unfold resolvedName at hres
      cases hind : indirectTypeName obj.value with
      | error q => simp [register, hind] at h
      | ok typeName => rw [hind] at hres; cases hres
    | ok sname =>
      rw [register_resolved IsUpper server obj name useName sname hres] at h
      split at h
      · cases h
      · rename_i hne
        split at h
        · cases h; exact Or.inl ⟨rfl, by simp⟩
        · split at h
          · cases h; exact Or.inl ⟨rfl, by simp⟩
          · rename_i habsent
            split at h
            · cases h; exact Or.inl ⟨rfl, by simp⟩
            · rename_i hlen
              cases h
              refine Or.inr ⟨obj, sname, rfl, hres, hne, ?_, ?_, rfl, rfl⟩
              · cases hl : server.serviceMap.lookup sname with
                | none => rfl
                | some v => rw [hl] at habsent; simp at habsent
              · intro hnil
                rw [hnil] at hlen
                exact hlen rfl

/-- The registry invariant: in every server of a run, no service name is empty, and
every entry of every method table is the record that `register` installs for its
method, under the name of the method, up to the call counter. -/
theorem Reachable_invariant (IsUpper : Char → Bool) (server : Server)
    (h : Reachable IsUpper server) :
    ∀ e ∈ server.serviceMap, e.1 ≠ "" ∧
      ∀ f ∈ e.2.method,
        methodRecord IsUpper f.2.method
          = some ⟨f.2.method, f.2.argTypes, f.2.returnType, 0⟩ ∧ f.1 = f.2.method.Name := by
  induction h with
  | new => intro e he; simp [NewServer] at he
  | @register server after rcvr name useName err _ hcall ih =>
    rcases register_returned IsUpper server rcvr name useName err after hcall with
      ⟨hsame, _⟩ | ⟨obj, sname, _, _, hne, _, _, _, hafter⟩
    · rw [hsame]; exact ih
    · intro e he
      rw [hafter] at he
      rcases List.mem_cons.mp he with he | he
      · subst he
        refine ⟨hne, ?_⟩
        intro f hf
        rcases MethodLoop_mem IsUpper obj.methods [] f hf with hf | ⟨m, _, hrec, hname⟩
        · cases hf
        · obtain ⟨_, hmt, _⟩ := methodRecord_some IsUpper m f.2 hrec
          have hm : f.2.method = m := by rw [hmt]
          have ha : f.2.argTypes = m.In.drop 1 := by rw [hmt]
          refine ⟨?_, by rw [hm]; exact hname⟩
          rw [hm, hrec, ha]
          conv_lhs => rw [hmt]
      · exact ih e he
  | @serve server unmarshal w body _ ih =>
    have hcounted : ∀ sname mname : String,
        ∀ e ∈ countCallAt sname mname server.serviceMap, e.1 ≠ "" ∧
          ∀ f ∈ e.2.method,
            methodRecord IsUpper f.2.method
              = some ⟨f.2.method, f.2.argTypes, f.2.returnType, 0⟩ ∧
            f.1 = f.2.method.Name := by
      intro sname mname e he
      obtain ⟨d, hd, h1, h2⟩ := mem_countCallAt sname mname e _ he
      obtain ⟨hdne, hdm⟩ := ih d hd
      refine ⟨by rw [h1]; exact hdne, ?_⟩
      rcases h2 with h2 | h2
      · rw [h2]; exact hdm
      · rw [h2]
        intro f hf
        obtain ⟨g, hg, h3, h4⟩ := mem_countCallIn mname f _ hf
        obtain ⟨hgr, hgn⟩ := hdm g hg
        rcases h4 with h4 | h4
        · rw [h3, h4]; exact ⟨hgr, hgn⟩
        · rw [h3, h4]; exact ⟨hgr, hgn⟩
    rcases ServeHTTP_shape unmarshal server w body with
      ⟨msg, hs⟩ | ⟨p, hs⟩ | ⟨sname, mname, p, calls, hs⟩ | ⟨sname, mname, resp, inv, hs⟩
    · rw [hs]; exact ih
    · rw [hs]; exact ih
    · rw [hs]; exact hcounted sname mname
    · rw [hs]; exact hcounted sname mname

/-! ## Registration -/

/-- A `register` call whose resolved name is valid and new, on an object with a method
that passes the validation, stores the service that holds the table of `MethodLoop`. -/
theorem register_succeeds (IsUpper : Char → Bool) (server : Server) (obj : Object)
    (name : String) (useName : Bool) (sname : String)
    (hname : resolvedName obj name useName = .ok sname)
    (hne : sname ≠ "")
    (hvalid : useName = true ∨ isExported IsUpper sname = true)
    (hnew : server.serviceMap.lookup sname = none)
    (heligible : ∃ m ∈ obj.methods, passesValidation IsUpper m = true) :
    register IsUpper server (some obj) name useName
      = .returned none ⟨(sname, ⟨sname, obj.value, obj.value.typ,
          MethodLoop IsUpper obj.methods []⟩) :: server.serviceMap⟩ := by
  have hguard : ¬ (obj.value.typ.PkgPath ≠ "" ∧ isExported IsUpper sname = false ∧
      useName = false) := by
    rintro ⟨_, h2, h3⟩
    rcases hvalid with h | h
    · rw [h] at h3; cases h3
    · rw [h] at h2; cases h2
  have hlook : ¬ ((server.serviceMap.lookup sname).isSome = true) := by simp [hnew]
  have hlen : ¬ ((MethodLoop IsUpper obj.methods []).length = 0) := by
    obtain ⟨m, hm, hp⟩ := heligible
    obtain ⟨mt, hrec⟩ := methodRecord_passes IsUpper m hp
    have hkey := MethodLoop_key IsUpper obj.methods [] m mt hm hrec
    intro hzero
    rw [List.length_eq_zero.mp hzero] at hkey
    simp at hkey
  rw [register_resolved IsUpper server obj name useName sname hname, if_neg hne,
    if_neg hguard, if_neg hlook, if_neg hlen]

/-- C12: in a server of a run in which the name `n` is registered, every later
`register` call whose resolved name is `n`, through `Register` or `RegisterName` and for
any object, returns an error and leaves the server as it was: `n` still reads the first
registration's service, with its receiver and method table. -/
theorem register_duplicate (IsUpper : Char → Bool) (server : Server) (obj : Object)
    (name : String) (useName : Bool) (n : String) (svc : service)
    (hserver : Reachable IsUpper server)
    (hname : resolvedName obj name useName = .ok n)
    (hpresent : server.serviceMap.lookup n = some svc) :
    ∃ msg : String,
      register IsUpper server (some obj) name useName = .returned (some msg) server := by
  have hne : n ≠ "" := (Reachable_invariant IsUpper server hserver (n, svc)
    (lookup_mem n svc _ hpresent)).1
  rw [register_resolved IsUpper server obj name useName n hname, if_neg hne]
  split
  · exact ⟨_, rfl⟩
  · rw [if_pos (by simp [hpresent])]
    exact ⟨_, rfl⟩

/-- Witness of C12: after `Register(new(Terminal))`, registering the other object
`new(TestService)` under the name `Terminal` fails and leaves the server as it was. -/
theorem register_duplicate_witness :
    ∃ msg : String,
      RegisterName isUpperASCII terminalServer "Terminal" (some newTestService)
        = .returned (some msg) terminalServer :=
  register_duplicate isUpperASCII terminalServer newTestService "Terminal" true "Terminal"
    ⟨"Terminal", ⟨.ptr Terminal, .int 0⟩, .ptr Terminal,
      [("Ls", ⟨Terminal.Ls, [stringT], .slice stringT, 0⟩),
        ("Login", ⟨Terminal.Login, [stringT, stringT], stringT, 0⟩),
        ("Help", ⟨Terminal.Help, [], stringT, 0⟩)]⟩
    (Reachable.register Reachable.new
      (rfl : register isUpperASCII NewServer (some newTerminal) "" false
        = .returned none terminalServer))
    rfl rfl

/-- C13: a `register` call whose resolved name is valid (not empty, and explicit or
exported) and not yet registered, on an object with at least one method that passes the
validation, succeeds; a lookup of the resolved name then finds the service, holding the
object; the keys of its method table are exactly the names of the object's methods that
pass the validation; and each record holds a method of the object that passes, under its
name, with its parameter types in declaration order without the receiver. -/
theorem register_installs (IsUpper : Char → Bool) (server : Server) (obj : Object)
    (name : String) (useName : Bool) (sname : String)
    (hname : resolvedName obj name useName = .ok sname)
    (hne : sname ≠ "")
    (hvalid : useName = true ∨ isExported IsUpper sname = true)
    (hnew : server.serviceMap.lookup sname = none)
    (heligible : ∃ m ∈ obj.methods, passesValidation IsUpper m = true) :
    ∃ svc : service,
      register IsUpper server (some obj) name useName
        = .returned none ⟨(sname, svc) :: server.serviceMap⟩ ∧
      List.lookup sname ((sname, svc) :: server.serviceMap) = some svc ∧
      svc.rcvr = obj.value ∧
      (∀ k : String, (svc.method.lookup k).isSome = true
        ↔ ∃ m ∈ obj.methods, m.Name = k ∧ passesValidation IsUpper m = true) ∧
      (∀ (k : String) (mt : methodType), svc.method.lookup k = some mt →
        mt.method ∈ obj.methods ∧ mt.method.Name = k ∧
        passesValidation IsUpper mt.method = true ∧
        mt.argTypes = mt.method.In.drop 1) := by
  have hentry : ∀ (k : String) (mt : methodType),
      (MethodLoop IsUpper obj.methods []).lookup k = some mt →
      ∃ m ∈ obj.methods, methodRecord IsUpper m = some mt ∧ k = m.Name := by
    intro k mt hk
    rcases MethodLoop_mem IsUpper obj.methods [] (k, mt) (lookup_mem k mt _ hk) with h | h
    · cases h
    · exact h
  refine ⟨⟨sname, obj.value, obj.value.typ, MethodLoop IsUpper obj.methods []⟩, ?_, ?_, rfl,
    ?_, ?_⟩
  · exact register_succeeds IsUpper server obj name useName sname hname hne hvalid hnew
      heligible
  · simp [List.lookup_cons]
  · intro k
    constructor
    · intro hk
      cases hl : (MethodLoop IsUpper obj.methods []).lookup k with
      | none => rw [hl] at hk; cases hk
      | some mt =>
        obtain ⟨m, hm, hrec, hkm⟩ := hentry k mt hl
        exact ⟨m, hm, hkm.symm, (methodRecord_some IsUpper m mt hrec).1⟩
    · rintro ⟨m, hm, hk, hp⟩
      obtain ⟨mt, hrec⟩ := methodRecord_passes IsUpper m hp
      rw [← hk]
      exact MethodLoop_key IsUpper obj.methods [] m mt hm hrec
  · intro k mt hk
    obtain ⟨m, hm, hrec, hkm⟩ := hentry k mt hk
    obtain ⟨hp, hmt, _⟩ := methodRecord_some IsUpper m mt hrec
    have h1 : mt.method = m := by rw [hmt]
    have h2 : mt.argTypes = m.In.drop 1 := by rw [hmt]
    rw [h1, h2]
    exact ⟨hm, hkm.symm, hp, rfl⟩

/-- Witness of C13: `Register(new(Terminal))` on the new server succeeds and installs
the service under `Terminal`. -/
theorem register_installs_witness :
    ∃ svc : service,
      register isUpperASCII NewServer (some newTerminal) "" false
        = .returned none ⟨(("Terminal", svc) :: NewServer.serviceMap)⟩ ∧
      List.lookup "Terminal" (("Terminal", svc) :: NewServer.serviceMap) = some svc ∧
      svc.rcvr = newTerminal.value ∧
      (∀ k : String, (svc.method.lookup k).isSome = true
        ↔ ∃ m ∈ newTerminal.methods, m.Name = k ∧ passesValidation isUpperASCII m = true) ∧
      (∀ (k : String) (mt : methodType), svc.method.lookup k = some mt →
        mt.method ∈ newTerminal.methods ∧ mt.method.Name = k ∧
        passesValidation isUpperASCII mt.method = true ∧
        mt.argTypes = mt.method.In.drop 1) :=
  register_installs isUpperASCII NewServer newTerminal "" false "Terminal" rfl (by decide)
    (Or.inr rfl) rfl ⟨Terminal.Help, by simp [newTerminal], rfl⟩

/-- C14: for a `register` call that reaches the methods (its resolved name is valid and
not yet registered): when no method of the object passes the validation, the call
returns the error `... has no exported methods of suitable type` and the server is left
as it was; when at least one method passes, the call succeeds, whatever the other
methods are. -/
theorem register_no_methods (IsUpper : Char → Bool) (server : Server) (obj : Object)
    (name : String) (useName : Bool) (sname : String)
    (hname : resolvedName obj name useName = .ok sname)
    (hne : sname ≠ "")
    (hvalid : useName = true ∨ isExported IsUpper sname = true)
    (hnew : server.serviceMap.lookup sname = none) :
    ((∀ m ∈ obj.methods, passesValidation IsUpper m = false) →
        register IsUpper server (some obj) name useName
          = .returned (some ("rpc Register: type " ++ sname ++
              " has no exported methods of suitable type")) server) ∧
      ((∃ m ∈ obj.methods, passesValidation IsUpper m = true) →
        ∃ after : Server,
          register IsUpper server (some obj) name useName = .returned none after) := by
  have hguard : ¬ (obj.value.typ.PkgPath ≠ "" ∧ isExported IsUpper sname = false ∧
      useName = false) := by
    rintro ⟨_, h2, h3⟩
    rcases hvalid with h | h
    · rw [h] at h3; cases h3
    · rw [h] at h2; cases h2
  have hlook : ¬ ((server.serviceMap.lookup sname).isSome = true) := by simp [hnew]
  constructor
  · intro hnone
    have hnil : MethodLoop IsUpper obj.methods [] = [] := by
      rw [MethodLoop_nil_iff]
      intro m hm
      cases hrec : methodRecord IsUpper m with
      | none => rfl
      | some mt =>
        have := (methodRecord_some IsUpper m mt hrec).1
        rw [hnone m hm] at this
        cases this
    rw [register_resolved IsUpper server obj name useName sname hname, if_neg hne,
      if_neg hguard, if_neg hlook, if_pos (by rw [hnil]; rfl)]
  · intro heligible
    exact ⟨_, register_succeeds IsUpper server obj name useName sname hname hne hvalid hnew
      heligible⟩

/-- Witness of C14: `Register(new(Plain))`, whose one method returns a single value,
fails with the error; `Register(new(Mixed))`, one of whose two methods returns a single
value, succeeds. -/
theorem register_no_methods_witness :
    register isUpperASCII NewServer (some newPlain) "" false
        = .returned (some "rpc Register: type Plain has no exported methods of suitable type")
            NewServer ∧
      ∃ after : Server,
        register isUpperASCII NewServer (some newMixed) "" false = .returned none after :=
  ⟨(register_no_methods isUpperASCII NewServer newPlain "" false "Plain" rfl (by decide)
      (Or.inr rfl) rfl).1 (by decide),
    (register_no_methods isUpperASCII NewServer newMixed "" false "Mixed" rfl (by decide)
      (Or.inr rfl) rfl).2 ⟨Mixed.Help, by simp [newMixed], rfl⟩⟩

/-- C15: the service name under which a successful `register` call stores the object is
the explicit name, verbatim, when one is supplied, and otherwise the name of the type of
the object, behind its pointer when the object is a pointer: the new service is the
entry put in front of the map under that key, a lookup of the key finds it, and it holds
the name and the object. -/
theorem register_name (IsUpper : Char → Bool) (server : Server) (obj : Object)
    (name : String) (useName : Bool) (after : Server)
    (h : register IsUpper server (some obj) name useName = .returned none after) :
    ∃ svc : service,
      after.serviceMap
        = ((if useName then name
            else if obj.value.typ.kind = Kind.Ptr then obj.value.typ.Elem.Name
            else obj.value.typ.Name), svc) :: server.serviceMap ∧
      after.serviceMap.lookup (if useName then name
          else if obj.value.typ.kind = Kind.Ptr then obj.value.typ.Elem.Name
          else obj.value.typ.Name) = some svc ∧
      svc.name = (if useName then name
          else if obj.value.typ.kind = Kind.Ptr then obj.value.typ.Elem.Name
          else obj.value.typ.Name) ∧
      svc.rcvr = obj.value := by
  rcases register_returned IsUpper server (some obj) name useName none after h with
    ⟨_, hne⟩ | ⟨obj', sname, hobj, hres, _, _, _, _, hafter⟩
  · exact absurd rfl hne
  · cases hobj
    have hkey : sname = (if useName then name
        else if obj.value.typ.kind = Kind.Ptr then obj.value.typ.Elem.Name
        else obj.value.typ.Name) := by
      unfold resolvedName indirectTypeName at hres
      by_cases hk : obj.value.typ.kind = Kind.Ptr
      · rw [if_pos hk] at hres
        rw [if_pos hk]
        cases hd : obj.value.data <;> rw [hd] at hres <;>
          first
          | (simp only [Except.ok.injEq] at hres; exact hres.symm)
          | cases hres
      · rw [if_neg hk] at hres
        rw [if_neg hk]
        simp only [Except.ok.injEq] at hres
        exact hres.symm
    rw [← hkey, hafter]
    exact ⟨_, rfl, by simp [List.lookup_cons], rfl, rfl⟩

/-- Witness of C15: `RegisterName("service", new(TestService))` stores the object under
the lower-case key `service`, where a lookup finds it. -/
theorem register_name_witness :
    RegisterName isUpperASCII NewServer "service" (some newTestService)
        = .returned none serviceServer ∧
      ∃ svc : service,
        serviceServer.serviceMap
          = ((if true then "service"
              else if newTestService.value.typ.kind = Kind.Ptr
                then newTestService.value.typ.Elem.Name
              else newTestService.value.typ.Name), svc) :: NewServer.serviceMap ∧
        serviceServer.serviceMap.lookup (if true then "service"
            else if newTestService.value.typ.kind = Kind.Ptr
              then newTestService.value.typ.Elem.Name
            else newTestService.value.typ.Name) = some svc ∧
        svc.name = (if true then "service"
            else if newTestService.value.typ.kind = Kind.Ptr
              then newTestService.value.typ.Elem.Name
            else newTestService.value.typ.Name) ∧
        svc.rcvr = newTestService.value :=
  ⟨rfl, register_name isUpperASCII NewServer newTestService "service" true serviceServer rfl⟩

/-- The two registrations of the test file: `Register(new(TestService))` stores the
object under `TestService`, the name of its type behind the pointer, and
`RegisterName("service", new(TestService))` under `service`. -/
theorem register_test_names :
    (∃ svc : service, Register isUpperASCII NewServer (some newTestService)
        = .returned none ⟨[("TestService", svc)]⟩ ∧ svc.rcvr = newTestService.value) ∧
      (∃ svc : service, RegisterName isUpperASCII NewServer "service" (some newTestService)
        = .returned none ⟨[("service", svc)]⟩ ∧ svc.rcvr = newTestService.value) :=
  ⟨⟨_, rfl, rfl⟩, ⟨_, rfl, rfl⟩⟩

/-- C16, the code at the failing input: the type `console` is not exported and has the
eligible method `Help`; `Register(new(console))`, the object being a pointer, succeeds
and stores the service under `console`. The check reads the package path of the type of
the object itself, which is empty for a pointer type, so the name is never looked at. -/
theorem Register_unexported_pointer :
    isExported isUpperASCII "console" = false ∧
      newConsole.value.typ.PkgPath = "" ∧
      Register isUpperASCII NewServer (some newConsole)
        = .returned none
            ⟨[("console", ⟨"console", ⟨.ptr console, .int 0⟩, .ptr console,
                [("Help", ⟨console.Help, [], stringT, 0⟩)]⟩)]⟩ :=
  ⟨rfl, rfl, rfl⟩

/-- For an object that is a value of a defined type, not a pointer to it, the check is
made: `Register` with an unexported type name returns the error and leaves the server
as it was. -/
theorem register_unexported_value (IsUpper : Char → Bool) (server : Server) (obj : Object)
    (sname : String) (hname : resolvedName obj "" false = .ok sname) (hne : sname ≠ "")
    (hdefined : obj.value.typ.PkgPath ≠ "") (hlower : isExported IsUpper sname = false) :
    register IsUpper server (some obj) "" false
      = .returned (some ("rpc Register: type " ++ sname ++ " is not exported")) server := by
  rw [register_resolved IsUpper server obj "" false sname hname, if_neg hne,
    if_pos ⟨hdefined, hlower, rfl⟩]

/-- C17 as stated fails: `RegisterName("", new(Terminal))` resolves the empty name; the
call returns no error to its caller, it ends the process in `log.Fatalln`. -/
theorem RegisterName_empty_counterexample :
    resolvedName newTerminal "" true = .ok "" ∧
      RegisterName isUpperASCII NewServer "" (some newTerminal) = .exited (.ptr Terminal) ∧
      ¬ ∃ (err : Option String) (after : Server),
        RegisterName isUpperASCII NewServer "" (some newTerminal) = .returned err after :=
  ⟨rfl, rfl, by
    rintro ⟨err, after, h⟩
    have h2 : RegisterName isUpperASCII NewServer "" (some newTerminal)
        = .exited (.ptr Terminal) := rfl
    rw [h2] at h
    cases h⟩

/-- C17, amended: a `register` call whose resolved service name is empty does not
return: it ends the process in `log.Fatalln("rpc: no service name for type", ...)` on the
type of the object; nothing has been stored before. -/
theorem register_empty_name_exits (IsUpper : Char → Bool) (server : Server) (obj : Object)
    (name : String) (useName : Bool)
    (hname : resolvedName obj name useName = .ok "") :
    register IsUpper server (some obj) name useName = .exited obj.value.typ := by
  rw [register_resolved IsUpper server obj name useName "" hname, if_pos rfl]

/-- Witness of C17 amended: `Register` of a pointer to a pointer, whose pointed-to type
`*Terminal` has no name. -/
theorem register_empty_name_exits_witness :
    resolvedName ⟨⟨.ptr (.ptr Terminal), .int 0⟩, []⟩ "" false = .ok "" ∧
      register isUpperASCII terminalServer (some ⟨⟨.ptr (.ptr Terminal), .int 0⟩, []⟩) "" false
        = .exited (.ptr (.ptr Terminal)) :=
  ⟨rfl, register_empty_name_exits isUpperASCII terminalServer
    ⟨⟨.ptr (.ptr Terminal), .int 0⟩, []⟩ "" false rfl⟩

/-- C18 as stated fails: after `Register(new(Terminal))` the method table holds `Ls`,
whose result type is the slice `[]string`, a kind outside the supported set. -/
theorem register_slice_result_counterexample :
    Register isUpperASCII NewServer (some newTerminal) = .returned none terminalServer ∧
      ((terminalServer.serviceMap.lookup "Terminal").bind fun s =>
        (s.method.lookup "Ls").map fun m => m.returnType) = some (.slice stringT) ∧
      supportedKind (RType.slice stringT).kind = false :=
  ⟨rfl, rfl, rfl⟩

/-- C18, amended: in every server of a run, every entry of every method table is stored
under the name of its method, which is exported; the method has exactly two return
types, the recorded result type and then exactly the error type; the recorded parameter
types are those of the method in order without the receiver; and every parameter type
and the result type that is a pointer points to an exported or builtin type. The kinds
of the parameter and result types are not restricted. -/
theorem Reachable_methods (IsUpper : Char → Bool) (server : Server)
    (hserver : Reachable IsUpper server) (sname mname : String) (svc : service)
    (mtype : methodType) (hsvc : (sname, svc) ∈ server.serviceMap)
    (hmethod : (mname, mtype) ∈ svc.method) :
    mname = mtype.method.Name ∧ isExported IsUpper mname = true ∧
      mtype.method.Out = [mtype.returnType, typeOfOsError] ∧
      mtype.argTypes = mtype.method.In.drop 1 ∧
      (∀ t ∈ mtype.argTypes, t.kind = Kind.Ptr → exportedOrBuiltin IsUpper t.Elem = true) ∧
      (mtype.returnType.kind = Kind.Ptr →
        exportedOrBuiltin IsUpper mtype.returnType.Elem = true) := by
  obtain ⟨hrec, hkey⟩ :=
    (Reachable_invariant IsUpper server hserver (sname, svc) hsvc).2 (mname, mtype) hmethod
  simp only at hrec hkey
  obtain ⟨hp, hmt, hout⟩ := methodRecord_some IsUpper mtype.method _ hrec
  simp only at hmt hout
  have hargs : mtype.argTypes = mtype.method.In.drop 1 := by
    have := congrArg methodType.argTypes hmt
    exact this
  unfold passesValidation at hp
  simp only [Bool.and_eq_true, decide_eq_true_eq, List.all_eq_true] at hp
  obtain ⟨⟨⟨⟨hname, hall⟩, _⟩, hret⟩, _⟩ := hp
  refine ⟨hkey, by rw [hkey]; exact hname, hout, hargs, ?_, ?_⟩
  · intro t ht
    rw [hargs] at ht
    exact hall t ht
  · rw [hout] at hret
    simp only [List.get?, Option.all_some, decide_eq_true_eq] at hret
    exact hret

/-- Witness of C18 amended: the entry `Login` of the service `Terminal` after
`Register(new(Terminal))`. -/
theorem Reachable_methods_witness :
    "Login" = Terminal.Login.Name ∧ isExported isUpperASCII "Login" = true ∧
      Terminal.Login.Out = [stringT, typeOfOsError] ∧
      [stringT, stringT] = Terminal.Login.In.drop 1 ∧
      (∀ t ∈ [stringT, stringT], t.kind = Kind.Ptr →
        exportedOrBuiltin isUpperASCII t.Elem = true) ∧
      (stringT.kind = Kind.Ptr → exportedOrBuiltin isUpperASCII stringT.Elem = true) :=
  Reachable_methods isUpperASCII terminalServer
    (Reachable.register Reachable.new
      (rfl : register isUpperASCII NewServer (some newTerminal) "" false
        = .returned none terminalServer))
    "Terminal" "Login"
    ⟨"Terminal", ⟨.ptr Terminal, .int 0⟩, .ptr Terminal,
      [("Ls", ⟨Terminal.Ls, [stringT], .slice stringT, 0⟩),
        ("Login", ⟨Terminal.Login, [stringT, stringT], stringT, 0⟩),
        ("Help", ⟨Terminal.Help, [], stringT, 0⟩)]⟩
    ⟨Terminal.Login, [stringT, stringT], stringT, 0⟩
    (List.mem_singleton.mpr rfl)
    (List.mem_cons_of_mem _ (List.mem_cons_self _ _))

/-! ## The call counters -/

/-- The server a request leaves: the call of the method it reaches is counted, and
nothing else changes. -/
theorem ServeHTTP_server (unmarshal : Unmarshal) (server : Server) (w : ResponseWriter)
    (body : Body) :
    (ServeHTTP unmarshal server w body).outcome.server
      = match reached unmarshal server body with
        | some (sname, mname) => ⟨countCallAt sname mname server.serviceMap⟩
        | none => server := by
  unfold ServeHTTP reached
  cases hreq : Decode body with
  | none => rfl
  | some req =>
    simp only
    cases hsplit : strings.Split req.Method '.' with
    | nil => rfl
    | cons sname segs =>
      cases segs with
      | nil =>
        simp only [List.get?]
        cases hsvc : server.serviceMap.lookup sname <;> rfl
      | cons mname more =>
        simp only [List.get?]
        cases hsvc : server.serviceMap.lookup sname with
        | none => rfl
        | some svc =>
          simp only
          cases hmethod : svc.method.lookup mname with
          | none => rfl
          | some mtype =>
            simp only
            cases hargs : getParams unmarshal req mtype.argTypes with
            | panic p => rfl
            | error msg => rfl
            | args args =>
              simp only
              repeat' split
              all_goals rfl

theorem numCallsOf_serve (unmarshal : Unmarshal) (server : Server) (w : ResponseWriter)
    (body : Body) (s m : String) :
    numCallsOf (ServeHTTP unmarshal server w body).outcome.server s m
      = if reached unmarshal server body = some (s, m) then
          (numCallsOf server s m).map fun n => (n + 1) % uintSize
        else numCallsOf server s m := by
  rw [ServeHTTP_server]
  cases hr : reached unmarshal server body with
  | none => simp
  | some keys =>
    obtain ⟨sname, mname⟩ := keys
    simp only [numCallsOf_countCallAt, Option.some.injEq, Prod.mk.injEq]
    by_cases h : s = sname ∧ m = mname
    · rw [if_pos h, if_pos ⟨h.1.symm, h.2.symm⟩]
    · rw [if_neg h, if_neg (fun hc => h ⟨hc.1.symm, hc.2.symm⟩)]

theorem numCallsOf_serveAll (unmarshal : Unmarshal) (s m : String) :
    ∀ (reqs : List (ResponseWriter × Body)) (server : Server) (n : Nat),
    numCallsOf server s m = some n → n < uintSize →
    numCallsOf (serveAll unmarshal server reqs) s m
      = some ((n + reachedCount unmarshal s m server reqs) % uintSize) := by
  intro reqs
  induction reqs with
  | nil =>
    intro server n hn hlt
    simp [serveAll, reachedCount, hn, Nat.mod_eq_of_lt hlt]
  | cons r reqs ih =>
    intro server n hn hlt
    obtain ⟨w, body⟩ := r
    unfold serveAll reachedCount
    have hstep := numCallsOf_serve unmarshal server w body s m
    by_cases hr : reached unmarshal server body = some (s, m)
    · rw [if_pos hr, hn] at hstep
      rw [ih _ ((n + 1) % uintSize) hstep (Nat.mod_lt _ (by decide)), if_pos hr,
        Nat.mod_add_mod, Nat.add_assoc]
    · rw [if_neg hr, hn] at hstep
      rw [ih _ n hstep hlt, if_neg hr, Nat.zero_add]

theorem addServerAt_serve (n : Nat) :
    (ServeHTTP noPointers (addServerAt n) []
        (call "TestService.Add" (.array [num 40, num 2]))).outcome.server
      = addServerAt ((n + 1) % uintSize) := rfl

theorem addServerAt_reachable (n : Nat) : Reachable isUpperASCII (addServerAt (n % uintSize)) := by
  induction n with
  | zero =>
    exact Reachable.register Reachable.new
      (rfl : register isUpperASCII NewServer (some addOnly) "" false
        = .returned none (addServerAt (0 % uintSize)))
  | succ n ih =>
    have h := Reachable.serve noPointers [] (call "TestService.Add" (.array [num 40, num 2])) ih
    rw [addServerAt_serve, Nat.mod_add_mod] at h
    exact h

/-- C20 as stated fails: the server whose counter of `TestService.Add` holds the largest
`uint`, 2^64 - 1, is a server of a run (one registration and 2^64 - 1 calls); one more
request for `Add` invokes the method and leaves the counter at 0: it has not increased
by one, it has decreased. -/
theorem numCalls_wraps_counterexample :
    Reachable isUpperASCII busyServer ∧
      numCallsOf busyServer "TestService" "Add" = some (2 ^ 64 - 1) ∧
      (ServeHTTP noPointers busyServer []
        (call "TestService.Add" (.array [num 40, num 2]))).calls.length = 1 ∧
      numCallsOf (ServeHTTP noPointers busyServer []
        (call "TestService.Add" (.array [num 40, num 2]))).outcome.server "TestService" "Add"
        = some 0 :=
  ⟨by
    have h := addServerAt_reachable (2 ^ 64 - 1)
    have hmod : (2 ^ 64 - 1) % uintSize = 2 ^ 64 - 1 := by decide
    rw [hmod] at h
    exact h, by decide, rfl, by decide⟩

/-- C20, amended. (1) Every counter of the service that a successful `register` call
stores is zero. (2) A request whose parameters are accepted, so that `ServeHTTP` reaches
the call of the method, adds one modulo 2^64 to the counter of that method, whether the
method then reports a failure or not: exactly one while the counter is below 2^64 - 1;
every other counter is as before. (3) A request that returns without having invoked a
method (invalid JSON, service or method not found, wrong arity, type mismatch) leaves
the server, and so every counter, as it was. (4) Hence after any sequence of requests a
counter holds, modulo 2^64, its value before plus the number of the requests that
reached the call of its method. -/
theorem numCalls_accounting :
    (∀ (IsUpper : Char → Bool) (server : Server) (rcvr : Option Object) (name : String)
        (useName : Bool) (after : Server),
        register IsUpper server rcvr name useName = .returned none after →
        ∃ (sname : String) (svc : service),
          after.serviceMap = (sname, svc) :: server.serviceMap ∧
          ∀ f ∈ svc.method, f.2.numCalls = 0) ∧
      (∀ (unmarshal : Unmarshal) (server : Server) (w : ResponseWriter) (body : Body)
        (req : jsonRequest) (sname mname : String) (more : List String) (svc : service)
        (mtype : methodType) (args : List Value),
        Decode body = some req →
        strings.Split req.Method '.' = sname :: mname :: more →
        server.serviceMap.lookup sname = some svc →
        svc.method.lookup mname = some mtype →
        getParams unmarshal req mtype.argTypes = .args args →
        (ServeHTTP unmarshal server w body).outcome.server
            = ⟨countCallAt sname mname server.serviceMap⟩ ∧
          numCallsOf (ServeHTTP unmarshal server w body).outcome.server sname mname
            = some ((mtype.numCalls + 1) % uintSize) ∧
          (mtype.numCalls + 1 < uintSize →
            numCallsOf (ServeHTTP unmarshal server w body).outcome.server sname mname
              = some (mtype.numCalls + 1)) ∧
          ∀ s m : String, ¬ (s = sname ∧ m = mname) →
            numCallsOf (ServeHTTP unmarshal server w body).outcome.server s m
              = numCallsOf server s m) ∧
      (∀ (unmarshal : Unmarshal) (server : Server) (w : ResponseWriter) (body : Body)
        (o : Outcome),
        ServeHTTP unmarshal server w body = .returned o → o.calls = [] →
        o.server = server) ∧
      (∀ (unmarshal : Unmarshal) (s m : String) (reqs : List (ResponseWriter × Body))
        (server : Server) (n : Nat),
        numCallsOf server s m = some n → n < uintSize →
        numCallsOf (serveAll unmarshal server reqs) s m
          = some ((n + reachedCount unmarshal s m server reqs) % uintSize)) := by
  refine ⟨?_, ?_, ?_, numCallsOf_serveAll⟩
  · intro IsUpper server rcvr name useName after h
    rcases register_returned IsUpper server rcvr name useName none after h with
      ⟨_, hne⟩ | ⟨obj, sname, _, _, _, _, _, _, hafter⟩
    · exact absurd rfl hne
    · refine ⟨sname, _, by rw [hafter], ?_⟩
      intro f hf
      rcases MethodLoop_mem IsUpper obj.methods [] f hf with hf | ⟨m, _, hrec, _⟩
      · cases hf
      · obtain ⟨_, hmt, _⟩ := methodRecord_some IsUpper m f.2 hrec
        rw [hmt]
  · intro unmarshal server w body req sname mname more svc mtype args hreq hsplit hsvc
      hmethod hargs
    have hserver : (ServeHTTP unmarshal server w body).outcome.server
        = ⟨countCallAt sname mname server.serviceMap⟩ := by
      simp only [ServeHTTP, hreq, hsplit, hsvc, hmethod, hargs, List.get?]
      repeat' split
      all_goals rfl
    have hbefore : numCallsOf server sname mname = some mtype.numCalls := by
      simp [numCallsOf, hsvc, hmethod]
    have hafter : numCallsOf (ServeHTTP unmarshal server w body).outcome.server sname mname
        = some ((mtype.numCalls + 1) % uintSize) := by
      rw [hserver, numCallsOf_countCallAt, if_pos ⟨rfl, rfl⟩, hbefore]
      rfl
    refine ⟨hserver, hafter, ?_, ?_⟩
    · intro hlt
      rw [hafter, Nat.mod_eq_of_lt hlt]
    · intro s m hsm
      rw [hserver, numCallsOf_countCallAt, if_neg hsm]
  · intro unmarshal server w body o h hcalls
    rcases ServeHTTP_shape unmarshal server w body with
      ⟨msg, hs⟩ | ⟨p, hs⟩ | ⟨sname, mname, p, calls, hs⟩ | ⟨sname, mname, resp, inv, hs⟩
    · rw [hs] at h; cases h; rfl
    · rw [hs] at h; cases h
    · rw [hs] at h; cases h
    · rw [hs] at h; cases h; simp at hcalls

/-- Witness of C20 amended: on the example server, whose counters are zero, the request
for `TestService.Add` with `[40, 2]` leaves the counter of `Add` at 1 and the counter
of `Terminal.Login` at 0. -/
theorem numCalls_accounting_witness :
    numCallsOf (ServeHTTP noPointers exampleServer []
        (call "TestService.Add" (.array [num 40, num 2]))).outcome.server "TestService" "Add"
        = some (0 + 1) ∧
      numCallsOf (ServeHTTP noPointers exampleServer []
        (call "TestService.Add" (.array [num 40, num 2]))).outcome.server "Terminal" "Login"
        = numCallsOf exampleServer "Terminal" "Login" :=
  have h := numCalls_accounting.2.1 noPointers exampleServer []
    (call "TestService.Add" (.array [num 40, num 2]))
    ⟨some (num 0), "TestService.Add", some (.array [num 40, num 2])⟩ "TestService" "Add" []
    (serviceOf "TestService" TestService TestService.Add)
    ⟨TestService.Add, [float64T, float64T], float64T, 0⟩
    [⟨float64T, .float ⟨40, 0⟩⟩, ⟨float64T, .float ⟨2, 0⟩⟩] rfl rfl rfl rfl rfl
  ⟨h.2.2.1 (by decide), h.2.2.2 "Terminal" "Login" (by decide)⟩

end goajax
